import Mathlib

/-!
The gonk editor: terminal mode, key decoding and cursor commands

A shallow embedding of `internal/terminal`, `internal/editor` and `cmd/gonk`
of the gonk editor.  Bytes are natural numbers below 256, Go `int` values are integers
kept in the signed 64-bit range by `wrap64`, Go errors are values of
`GoError`, and a run-time panic is an explicit outcome.
-/

namespace Gonk

/-! ## Errors and machine integers -/

/-- Go error values that the program can produce or receive. -/
inductive GoError where
  /-- `io.EOF`, returned by a read at the end of standard input. -/
  | EOF
  /-- An error number reported by the operating system. -/
  | errno (code : Nat)
  /-- The package-level `ErrQuit` of the editor. -/
  | ErrQuit
  /-- The error `could not parse cursor position` of `getCursorPosition`. -/
  | parseCursor
  deriving DecidableEq, Repr

/-- Two's-complement wrap-around of Go's 64-bit `int`. -/
def wrap64 (x : Int) : Int :=
  (x + 9223372036854775808) % 18446744073709551616 - 9223372036854775808

/-- The values a Go `int` can hold. -/
def IsInt64 (x : Int) : Prop :=
  -9223372036854775808 ≤ x ∧ x ≤ 9223372036854775807

instance (x : Int) : Decidable (IsInt64 x) := by
  unfold IsInt64; infer_instance

/-! ## Key codes (`editor.go`, lines 13-26) -/

def ARROW_LEFT : Nat := 255
def ARROW_RIGHT : Nat := 254
def ARROW_UP : Nat := 253
def ARROW_DOWN : Nat := 252
def PAGE_UP : Nat := 251
def PAGE_DOWN : Nat := 250
def HOME_KEY : Nat := 249
def END_KEY : Nat := 248
def DEL_KEY : Nat := 247

/-- The byte `c & 0x1F` (`terminal/helpers.go`). -/
def CtrlKey (c : Nat) : Nat := c &&& 0x1F

/-! ## Standard input -/

/-- One call of `os.Stdin.Read` as seen by the program: a byte was delivered,
nothing was delivered and no error was reported, or the read failed. -/
inductive ReadEvent where
  | data (b : Nat)
  | idle
  | fail (e : GoError)
  deriving DecidableEq, Repr

/-- The effect of one read event on a one-byte buffer holding `buf`:
the pair `(n, err)` that `Read` returns, and the buffer afterwards. -/
def readEvent (buf : Nat) : ReadEvent → (Nat × Option GoError) × Nat
  | .data b => ((1, none), b)
  | .idle => ((0, none), buf)
  | .fail e => ((0, some e), buf)

/-- The call `os.Stdin.Read(buf[:])` on the pending input: the result
`(n, err)`, the buffer afterwards and the input left.  Exhausted input
reads as `io.EOF`. -/
def stdinRead (buf : Nat) : List ReadEvent → (Nat × Option GoError) × Nat × List ReadEvent
  | [] => ((0, some .EOF), buf, [])
  | ev :: rest => ((readEvent buf ev).1, (readEvent buf ev).2, rest)

/-- What a call of `ReadKey` produces: the returned pair `(byte, error)`, or
a run-time panic. -/
inductive KeyResult where
  | ret (key : Nat) (err : Option GoError)
  | panic
  deriving DecidableEq, Repr

/-- The inner loop of `ReadKey` (lines 114-123): read and append to `seq`
until the byte just read is `~`.  Returns the error of a failed read, or the
buffer and the accumulated sequence, with the input left. -/
def readUntilTilde (buf : Nat) (seq : List Nat) :
    List ReadEvent → Except GoError (Nat × List Nat) × List ReadEvent
  | [] => (.error .EOF, [])
  | ev :: rest =>
    match readEvent buf ev with
    | ((_, some err), _) => (.error err, rest)
    | ((_, none), buf1) =>
      if buf1 = 126 then (.ok (buf1, seq ++ [buf1]), rest)
      else readUntilTilde buf1 (seq ++ [buf1]) rest

/-- The final `switch last` of `ReadKey` (lines 152-170), with
`last := seq[2]`; indexing past the end of `seq` panics. -/
def arrowSwitch (seq : List Nat) : KeyResult :=
  match seq[2]? with
  | none => .panic
  | some last =>
    if last = 65 then .ret ARROW_UP none
    else if last = 66 then .ret ARROW_DOWN none
    else if last = 67 then .ret ARROW_RIGHT none
    else if last = 68 then .ret ARROW_LEFT none
    else if last = 72 then .ret HOME_KEY none
    else if last = 70 then .ret END_KEY none
    else .ret 0 none

/-- The `switch seq[2]` after the `~` loop (lines 125-141). -/
def tildeSwitch (seq : List Nat) : KeyResult :=
  match seq[2]? with
  | none => .panic
  | some d =>
    if d = 49 then .ret HOME_KEY none
    else if d = 51 then .ret DEL_KEY none
    else if d = 52 then .ret END_KEY none
    else if d = 53 then .ret PAGE_UP none
    else if d = 54 then .ret PAGE_DOWN none
    else if d = 55 then .ret HOME_KEY none
    else if d = 56 then .ret END_KEY none
    else .ret 0 none

/-- The body of `ReadKey` after an escape byte has been read (lines 92-170).
`buf` is the one-byte buffer, `inp` the pending input. -/
def readEscape (buf : Nat) (inp : List ReadEvent) : KeyResult × List ReadEvent :=
  let seq : List Nat := [27]
  match stdinRead buf inp with
  | ((_, some err), _, inp1) => (.ret 0 (some err), inp1)
  | ((_, none), buf1, inp1) =>
    let seq1 := seq ++ [buf1]
    match seq1[1]? with
    | none => (.panic, inp1)
    | some s1 =>
      if s1 = 91 then
        match stdinRead buf1 inp1 with
        | ((_, some err), _, inp2) => (.ret 0 (some err), inp2)
        | ((_, none), buf2, inp2) =>
          let seq2 := seq1 ++ [buf2]
          match seq2[2]? with
          | none => (.panic, inp2)
          | some s2 =>
            if 48 ≤ s2 ∧ s2 ≤ 57 then
              match readUntilTilde buf2 seq2 inp2 with
              | (.error err, inp3) => (.ret 0 (some err), inp3)
              | (.ok (_, seq3), inp3) => (tildeSwitch seq3, inp3)
            else (arrowSwitch seq2, inp2)
      else if s1 = 79 then
        match seq1[2]? with
        | none => (.panic, inp1)
        | some s2 =>
          if s2 = 72 then (.ret HOME_KEY none, inp1)
          else if s2 = 70 then (.ret END_KEY none, inp1)
          else (arrowSwitch seq1, inp1)
      else (arrowSwitch seq1, inp1)

/-- The outer loop of `ReadKey` (lines 77-171) with the buffer `buf`: a failed
read returns its error, a read of nothing starts over, a byte other than
escape is returned as it is, and an escape byte starts `readEscape`. -/
def readKeyLoop (buf : Nat) : List ReadEvent → KeyResult × List ReadEvent
  | [] => (.ret 0 (some .EOF), [])
  | ev :: rest =>
    match readEvent buf ev with
    | ((_, some err), _) => (.ret 0 (some err), rest)
    | ((n, none), buf1) =>
      if n = 0 then readKeyLoop buf1 rest
      else if buf1 ≠ 27 then (.ret buf1 none, rest)
      else readEscape buf1 rest

/-- The function `ReadKey` of `editor.go`: `var buf [1]byte` starts as 0. -/
def ReadKey (inp : List ReadEvent) : KeyResult × List ReadEvent :=
  readKeyLoop 0 inp

/-! ## Terminal attributes and raw mode (`terminal.go`) -/

/-- The structure `unix.Termios`: four flag words, the control characters
and the two line speeds. -/
structure Termios where
  Iflag : Nat
  Oflag : Nat
  Cflag : Nat
  Lflag : Nat
  Cc : List Nat
  Ispeed : Nat
  Ospeed : Nat
  deriving DecidableEq, Repr

/-- The constants of `golang.org/x/sys/unix` that `EnableRawMode` names.
The package is outside the repository, so they are a parameter. -/
structure UnixConsts where
  BRKINT : Nat
  ICRNL : Nat
  INPCK : Nat
  ISTRIP : Nat
  IXON : Nat
  OPOST : Nat
  CS8 : Nat
  ECHO : Nat
  ICANON : Nat
  IEXTEN : Nat
  ISIG : Nat
  VMIN : Nat
  VTIME : Nat

/-- The values of these constants on the BSD family of systems (the ones
that have `TIOCGETA`), as in `<sys/termios.h>`. -/
def bsdConsts : UnixConsts :=
  { BRKINT := 0x2, ICRNL := 0x100, INPCK := 0x10, ISTRIP := 0x20, IXON := 0x200,
    OPOST := 0x1, CS8 := 0x300,
    ECHO := 0x8, ICANON := 0x100, IEXTEN := 0x400, ISIG := 0x80,
    VMIN := 16, VTIME := 17 }

/-- Go's bit-clear operator `a &^ b`: the bits of `a` that are not set in `b`. -/
def andNot (a b : Nat) : Nat := a ^^^ (a &&& b)

/-- One text row, `Erow`. -/
structure Erow where
  Size : Int
  Text : List Nat
  deriving DecidableEq, Repr

/-- The structure `TermConfig`.  `OrigTermios` is a pointer: `none` is `nil`,
`some p` is the address `p` of a `Termios` value on the heap. -/
structure TermConfig where
  OrigTermios : Option Nat
  CursorX : Int
  CursorY : Int
  ScreenRows : Int
  ScreenCols : Int
  NumRows : Int
  Row : Erow
  deriving DecidableEq, Repr

/-- The part of the world that the terminal package acts on: the attributes
the terminal device currently has, the `Termios` values allocated so far
(an address is a position in `heap`), and the global `Config`. -/
structure World where
  tty : Termios
  heap : List Termios
  Config : TermConfig
  deriving DecidableEq, Repr

/-- What a function returning `error` produces: the error (`none` is `nil`),
or a run-time panic. -/
inductive ErrResult where
  | ret (err : Option GoError)
  | panic
  deriving DecidableEq, Repr

/-- The call `unix.IoctlGetTermios(fd, unix.TIOCGETA)`: `var value Termios` is
filled with the attributes of the device and `&value` is returned.  `res` is
the result the system call reports. -/
def IoctlGetTermios (res : Option GoError) (w : World) : (Nat × Option GoError) × World :=
  match res with
  | some err => ((w.heap.length, some err), { w with heap := w.heap ++ [w.tty] })
  | none => ((w.heap.length, none), { w with heap := w.heap ++ [w.tty] })

/-- The call `unix.IoctlSetTermios(fd, unix.TIOCSETAF, value)`: the device
takes the attributes stored at the address `value`.  `res` is the result the
system call reports; a `nil` or dangling address is refused with `EFAULT`. -/
def IoctlSetTermios (res : Option GoError) (value : Option Nat) (w : World) :
    Option GoError × World :=
  match res with
  | some err => (some err, w)
  | none =>
    match value.bind (fun p => w.heap[p]?) with
    | none => (some (.errno 14), w)
    | some t => (none, { w with tty := t })

/-- An assignment through a pointer, `p.field = ...`: `none` is the panic of a
`nil` dereference. -/
def storeAt (p : Option Nat) (f : Termios → Termios) (w : World) : Option World :=
  match p with
  | none => none
  | some a =>
    match w.heap[a]? with
    | none => none
    | some t => some { w with heap := w.heap.set a (f t) }

/-- The function `EnableRawMode` (lines 42-72).  `getRes` and `setRes` are the
results that the two system calls report.  `raw := Config.OrigTermios` copies
the pointer, so the assignments through `raw` act on the value that
`Config.OrigTermios` points to. -/
def EnableRawMode (k : UnixConsts) (getRes setRes : Option GoError) (w : World) :
    ErrResult × World :=
  match IoctlGetTermios getRes w with
  | ((_, some err), _) => (.ret (some err), w)
  | ((termios, none), w1) =>
    let w2 : World := { w1 with Config := { w1.Config with OrigTermios := some termios } }
    let raw := w2.Config.OrigTermios
    let stores : Option World :=
      (storeAt raw (fun t =>
        { t with Iflag := andNot t.Iflag (k.BRKINT ||| k.ICRNL ||| k.INPCK ||| k.ISTRIP ||| k.IXON) })
        w2).bind
      fun a => (storeAt raw (fun t => { t with Oflag := andNot t.Oflag k.OPOST }) a).bind
      fun b => (storeAt raw (fun t => { t with Cflag := t.Cflag ||| k.CS8 }) b).bind
      fun c => (storeAt raw (fun t =>
        { t with Lflag := andNot t.Lflag (k.ECHO ||| k.ICANON ||| k.IEXTEN ||| k.ISIG) }) c).bind
      fun d => (storeAt raw (fun t => { t with Cc := t.Cc.set k.VMIN 1 }) d).bind
      fun e => storeAt raw (fun t => { t with Cc := t.Cc.set k.VTIME 0 }) e
    match stores with
    | none => (.panic, w2)
    | some w3 =>
      match IoctlSetTermios setRes raw w3 with
      | (some err, w4) => (.ret (some err), w4)
      | (none, w4) => (.ret none, w4)

/-- The function `DisableRawMode` (lines 75-79). -/
def DisableRawMode (setRes : Option GoError) (w : World) : ErrResult × World :=
  ((.ret (IoctlSetTermios setRes w.Config.OrigTermios w).1),
    (IoctlSetTermios setRes w.Config.OrigTermios w).2)

/-- The attribute set that `EnableRawMode` builds from `t`. -/
def rawOf (k : UnixConsts) (t : Termios) : Termios :=
  { t with
    Iflag := andNot t.Iflag (k.BRKINT ||| k.ICRNL ||| k.INPCK ||| k.ISTRIP ||| k.IXON)
    Oflag := andNot t.Oflag k.OPOST
    Cflag := t.Cflag ||| k.CS8
    Lflag := andNot t.Lflag (k.ECHO ||| k.ICANON ||| k.IEXTEN ||| k.ISIG)
    Cc := (t.Cc.set k.VMIN 1).set k.VTIME 0 }

/-- A terminal in the usual cooked mode: input and output processing, echo,
canonical input and signals are on. -/
def cookedTermios : Termios :=
  { Iflag := 0x2302, Oflag := 0x3, Cflag := 0x4b00, Lflag := 0x5cb,
    Cc := [4, 255, 255, 127, 23, 21, 18, 255, 3, 28, 26, 25, 17, 19, 22, 15, 1, 0, 20, 255],
    Ispeed := 38400, Ospeed := 38400 }

/-- A world at program start: nothing allocated, `Config` at its zero value. -/
def startWorld (t : Termios) : World :=
  { tty := t, heap := [],
    Config := { OrigTermios := none, CursorX := 0, CursorY := 0, ScreenRows := 0,
                ScreenCols := 0, NumRows := 0, Row := { Size := 0, Text := [] } } }

/-! ## Window size (`terminal.go`, lines 83-128) -/

/-- The character class `\d` of Go's `regexp`: an ASCII decimal digit. -/
def isDigit (b : Nat) : Bool := 48 ≤ b && b ≤ 57

/-- A match of the pattern `\x1b\[(\d+);(\d+)R` that starts at the head of
`s`: the texts of the two groups.  A digit is none of `;` and `R`, so each
`\d+` takes the whole run of digits. -/
def matchReportAt (s : List Nat) : Option (List Nat × List Nat) :=
  match s with
  | 27 :: 91 :: t =>
    if t.takeWhile isDigit = [] then none
    else
      match t.dropWhile isDigit with
      | 59 :: u =>
        if u.takeWhile isDigit = [] then none
        else
          match u.dropWhile isDigit with
          | 82 :: _ => some (t.takeWhile isDigit, u.takeWhile isDigit)
          | _ => none
      | _ => none
  | _ => none

/-- The call `re.FindStringSubmatch(s)` for that pattern: the groups of the
leftmost match, `none` when no position of `s` matches. -/
def findReport : List Nat → Option (List Nat × List Nat)
  | [] => none
  | b :: t =>
    match matchReportAt (b :: t) with
    | some m => some m
    | none => findReport t

/-- The number a string of decimal digits denotes. -/
def decimalValue (ds : List Nat) : Nat :=
  ds.foldl (fun acc d => 10 * acc + (d - 48)) 0

/-- The value `strconv.Atoi` returns for a non-empty string of decimal
digits: the number, or the largest `int` when the number does not fit (the
range error that comes with it is dropped by the caller). -/
def Atoi (ds : List Nat) : Int :=
  if decimalValue ds ≤ 9223372036854775807 then (decimalValue ds : Int)
  else 9223372036854775807

/-- The function `getCursorPosition` (lines 106-128).  `readErr` and `resp`
are the result of `os.Stdin.Read(buf)`: the error and the bytes delivered,
of which the 32-byte buffer holds at most 32. -/
def getCursorPosition (readErr : Option GoError) (resp : List Nat) (config : TermConfig) :
    Option GoError × TermConfig :=
  match readErr with
  | some err => (some err, config)
  | none =>
    match findReport (resp.take 32) with
    | none => (some .parseCursor, config)
    | some (m1, m2) =>
      (none, { config with ScreenRows := Atoi m1, ScreenCols := Atoi m2 })

/-- The function `GetWindowSize` (lines 83-104).  `errno`, `wsRow` and `wsCol`
are what the `TIOCGWINSZ` call leaves in `errno` and in the 16-bit fields
`ws.Row` and `ws.Col`; `readErr` and `resp` are the read of the fallback.
The bytes the fallback writes to standard output do not enter the result. -/
def GetWindowSize (errno wsRow wsCol : Nat) (readErr : Option GoError) (resp : List Nat)
    (config : TermConfig) : Option GoError × TermConfig :=
  if errno = 0 ∧ wsCol % 65536 ≠ 0 then
    (none, { config with ScreenRows := ((wsRow % 65536 : Nat) : Int),
                         ScreenCols := ((wsCol % 65536 : Nat) : Int) })
  else
    match getCursorPosition readErr resp config with
    | (some err, config1) => (some err, config1)
    | (none, config1) => (none, config1)

/-- A cursor position report of exactly the shape `ESC [ rows ; cols R`, with
`rows` and `cols` non-empty strings of decimal digits. -/
def IsReport (rows cols report : List Nat) : Prop :=
  rows ≠ [] ∧ cols ≠ [] ∧ (∀ d ∈ rows, isDigit d = true) ∧ (∀ d ∈ cols, isDigit d = true) ∧
  report = [27, 91] ++ rows ++ [59] ++ cols ++ [82]

/-! ## Editor state and commands (`editor.go`) -/

/-- The function `InitEditor` (lines 33-42). -/
def InitEditor (errno wsRow wsCol : Nat) (readErr : Option GoError) (resp : List Nat)
    (Config : TermConfig) : Option GoError × TermConfig :=
  match GetWindowSize errno wsRow wsCol readErr resp
      { Config with CursorX := 0, CursorY := 0, NumRows := 0 } with
  | (some err, c) => (some err, c)
  | (none, c) => (none, c)

/-- The call `strings.TrimRight(line, "\r\n")`. -/
def trimRightCRLF (line : List Nat) : List Nat :=
  (line.reverse.dropWhile (fun b => b = 13 || b = 10)).reverse

/-- The function `EditorOpen` (lines 44-71).  `openErr` is the error of
`os.Open`, `line` the text of the first token when `scanner.Scan()` is true,
`scanErr` the value of `scanner.Err()`.  `none` is a panic. -/
def EditorOpen (openErr : Option GoError) (line : Option (List Nat)) (scanErr : Option GoError)
    (Config : TermConfig) : Option TermConfig :=
  match openErr with
  | some _ => none
  | none =>
    let Config1 : TermConfig :=
      match line with
      | some l =>
        { Config with
          Row := { Size := ((trimRightCRLF l).length : Int), Text := trimRightCRLF l },
          NumRows := 1 }
      | none => Config
    match scanErr with
    | some _ => none
    | none => some Config1

/-- The function `moveCursor` (lines 269-288). -/
def moveCursor (key : Nat) (Config : TermConfig) : TermConfig :=
  if key = ARROW_LEFT then
    if Config.CursorX > 0 then { Config with CursorX := wrap64 (Config.CursorX - 1) }
    else Config
  else if key = ARROW_RIGHT then
    if Config.CursorX < wrap64 (Config.ScreenCols - 1) then
      { Config with CursorX := wrap64 (Config.CursorX + 1) }
    else Config
  else if key = ARROW_UP then
    if Config.CursorY > 0 then { Config with CursorY := wrap64 (Config.CursorY - 1) }
    else Config
  else if key = ARROW_DOWN then
    if Config.CursorY < wrap64 (Config.ScreenRows - 1) then
      { Config with CursorY := wrap64 (Config.CursorY + 1) }
    else Config
  else Config

/-- The loop `for n > 0 { ...; n-- }` of `ProcessKeyPress` (lines 191-198),
by the number of iterations left. -/
def pageLoop (c : Nat) : Nat → TermConfig → TermConfig
  | 0, Config => Config
  | n + 1, Config =>
    pageLoop c n (if c = PAGE_UP then moveCursor ARROW_UP Config else moveCursor ARROW_DOWN Config)

/-- The `switch c` of `ProcessKeyPress` (lines 181-211): the returned error
and the configuration afterwards.  The counter `n` starts at `ScreenRows` and
the loop runs while it is positive, that is `ScreenRows.toNat` times. -/
def keyPress (c : Nat) (Config : TermConfig) : Option GoError × TermConfig :=
  if c = CtrlKey 113 then (some .ErrQuit, Config)
  else if c = PAGE_UP ∨ c = PAGE_DOWN then
    (none, pageLoop c Config.ScreenRows.toNat Config)
  else if c = ARROW_UP ∨ c = ARROW_DOWN ∨ c = ARROW_LEFT ∨ c = ARROW_RIGHT then
    (none, moveCursor c Config)
  else if c = HOME_KEY then (none, { Config with CursorX := 0 })
  else if c = END_KEY then (none, { Config with CursorX := wrap64 (Config.ScreenCols - 1) })
  else (none, Config)

/-- The function `ProcessKeyPress` (lines 175-212) on the configuration and
the pending input: the outcome, the configuration and the input left. -/
def ProcessKeyPress (Config : TermConfig) (inp : List ReadEvent) :
    ErrResult × TermConfig × List ReadEvent :=
  match ReadKey inp with
  | (.panic, rest) => (.panic, Config, rest)
  | (.ret _ (some err), rest) => (.ret (some err), Config, rest)
  | (.ret c none, rest) => (.ret (keyPress c Config).1, (keyPress c Config).2, rest)

/-- The cursor lies inside the viewport. -/
def CursorInViewport (Config : TermConfig) : Prop :=
  0 ≤ Config.CursorX ∧ Config.CursorX ≤ Config.ScreenCols - 1 ∧
  0 ≤ Config.CursorY ∧ Config.CursorY ≤ Config.ScreenRows - 1

instance (Config : TermConfig) : Decidable (CursorInViewport Config) := by
  unfold CursorInViewport; infer_instance

/-- The configurations the editor can be in once `InitEditor` has succeeded
with a positive viewport: the one `InitEditor` leaves, and those that
`EditorOpen` and any number of `ProcessKeyPress` calls make of it. -/
inductive Reachable : TermConfig → Prop where
  | init (errno wsRow wsCol : Nat) (readErr : Option GoError) (resp : List Nat)
      (c0 c : TermConfig)
      (hinit : InitEditor errno wsRow wsCol readErr resp c0 = (none, c))
      (hrows : 0 < c.ScreenRows) (hcols : 0 < c.ScreenCols) : Reachable c
  | opened (openErr : Option GoError) (line : Option (List Nat)) (scanErr : Option GoError)
      (c c1 : TermConfig) (h : Reachable c)
      (hopen : EditorOpen openErr line scanErr c = some c1) : Reachable c1
  | key (c : TermConfig) (inp : List ReadEvent) (h : Reachable c) :
      Reachable (ProcessKeyPress c inp).2.1

/-- A configuration with a 24 by 80 viewport and the cursor at `(x, y)`. -/
def sampleConfig (x y : Int) : TermConfig :=
  { OrigTermios := none, CursorX := x, CursorY := y, ScreenRows := 24, ScreenCols := 80,
    NumRows := 0, Row := { Size := 0, Text := [] } }

/-! ## Text rows and rendering (`helpers.go`, `editor.go` lines 214-267) -/

/-- A continuation byte of UTF-8, `0x80..0xBF`. -/
def isCont (b : Nat) : Bool := 0x80 ≤ b && b ≤ 0xBF

/-- Lowest second byte that Go accepts after the first byte `b0` of a three- or
four-byte sequence (`0xE0` and `0xF0` exclude the overlong forms). -/
def secondLo (b0 : Nat) : Nat :=
  if b0 = 0xE0 then 0xA0 else if b0 = 0xF0 then 0x90 else 0x80

/-- Highest second byte that Go accepts after `b0` (`0xED` excludes the
surrogates, `0xF4` the values above `0x10FFFF`). -/
def secondHi (b0 : Nat) : Nat :=
  if b0 = 0xED then 0x9F else if b0 = 0xF4 then 0x8F else 0xBF

/-- Go's `utf8.DecodeRuneInString`: the rune at the head of `s` and its width
in bytes.  Bytes that do not start a well-formed sequence decode as
`U+FFFD` of width 1. -/
def decodeRune : List Nat → Nat × Nat
  | [] => (0xFFFD, 0)
  | b0 :: t =>
    if b0 < 0x80 then (b0, 1)
    else if 0xC2 ≤ b0 ∧ b0 ≤ 0xDF then
      match t with
      | b1 :: _ =>
        if isCont b1 then ((b0 - 0xC0) * 64 + (b1 - 0x80), 2) else (0xFFFD, 1)
      | [] => (0xFFFD, 1)
    else if 0xE0 ≤ b0 ∧ b0 ≤ 0xEF then
      match t with
      | b1 :: b2 :: _ =>
        if secondLo b0 ≤ b1 ∧ b1 ≤ secondHi b0 ∧ isCont b2 then
          ((b0 - 0xE0) * 4096 + (b1 - 0x80) * 64 + (b2 - 0x80), 3)
        else (0xFFFD, 1)
      | _ => (0xFFFD, 1)
    else if 0xF0 ≤ b0 ∧ b0 ≤ 0xF4 then
      match t with
      | b1 :: b2 :: b3 :: _ =>
        if secondLo b0 ≤ b1 ∧ b1 ≤ secondHi b0 ∧ isCont b2 ∧ isCont b3 then
          ((b0 - 0xF0) * 262144 + (b1 - 0x80) * 4096 + (b2 - 0x80) * 64 + (b3 - 0x80), 4)
        else (0xFFFD, 1)
      | _ => (0xFFFD, 1)
    else (0xFFFD, 1)

/-- The conversion `[]rune(s)` with a bound on the number of runes. -/
def runesFuel : Nat → List Nat → List Nat
  | 0, _ => []
  | n + 1, s =>
    match s with
    | [] => []
    | b :: t => (decodeRune (b :: t)).1 :: runesFuel n ((b :: t).drop (decodeRune (b :: t)).2)

/-- The conversion `[]rune(s)`: a string has at most as many runes as bytes. -/
def runes (s : List Nat) : List Nat := runesFuel s.length s

/-- The UTF-8 encoding of one rune, as in `string(r)`: surrogates and values
above `0x10FFFF` are written as `U+FFFD`. -/
def encodeRune (r : Nat) : List Nat :=
  if r < 0x80 then [r]
  else if r < 0x800 then [0xC0 + r / 64, 0x80 + r % 64]
  else if (0xD800 ≤ r ∧ r ≤ 0xDFFF) ∨ 0x10FFFF < r then [0xEF, 0xBF, 0xBD]
  else if r < 0x10000 then [0xE0 + r / 4096, 0x80 + r / 64 % 64, 0x80 + r % 64]
  else [0xF0 + r / 262144, 0x80 + r / 4096 % 64, 0x80 + r / 64 % 64, 0x80 + r % 64]

/-- The conversion `string(runes)`. -/
def encodeRunes : List Nat → List Nat
  | [] => []
  | r :: rs => encodeRune r ++ encodeRunes rs

/-- A Unicode scalar value: at most `0x10FFFF` and not a surrogate. -/
def IsScalar (r : Nat) : Prop := r < 0xD800 ∨ (0xE000 ≤ r ∧ r ≤ 0x10FFFF)

/-- A byte string is well-formed UTF-8 when writing its runes back gives the
same bytes: an ill-formed byte reads as `U+FFFD`, whose encoding is three
other bytes. -/
def WellFormedUTF8 (s : List Nat) : Prop := encodeRunes (runes s) = s

instance (s : List Nat) : Decidable (WellFormedUTF8 s) := by
  unfold WellFormedUTF8; infer_instance

/-- The function `truncateString` (`helpers.go`).  `none` is the panic of the
slice expression `runes[:x]` for a negative `x`. -/
def truncateString (s : List Nat) (x : Int) : Option (List Nat) :=
  if ((runes s).length : Int) > x then
    if x < 0 then none else some (encodeRunes ((runes s).take x.toNat))
  else some s

/-- The string `WELCOME_MSG + VERSION`, `"Gonk -- 0.0.1"`. -/
def welcomeMsg : List Nat := [71, 111, 110, 107, 32, 45, 45, 32, 48, 46, 48, 46, 49]

/-- The text that `drawRows` writes for a document row (lines 257-262): the
row text, cut by `truncateString` when `Row.Size` exceeds `ScreenCols`. -/
def rowText (Config : TermConfig) : Option (List Nat) :=
  if Config.Row.Size > Config.ScreenCols then truncateString Config.Row.Text Config.ScreenCols
  else some Config.Row.Text

/-- The banner block of `drawRows` (lines 233-244): what is appended to `buf`
for the row `y`. -/
def drawBanner (Config : TermConfig) (y : Int) (buf : List Nat) : List Nat :=
  if Config.NumRows = 0 ∧ y = 0 then
    let padding := Int.tdiv (wrap64 (Config.ScreenCols - (welcomeMsg.length : Int))) 2
    (if padding > 0 then buf ++ List.replicate padding.toNat 32 else buf) ++ welcomeMsg ++ [13, 10]
  else buf

/-- One iteration of the loop of `drawRows` (lines 232-266) for the row `y`:
the banner block, then the tilde row or the document row. -/
def drawRow (Config : TermConfig) (y : Int) (buf : List Nat) : Option (List Nat) :=
  let buf1 := drawBanner Config y buf
  if y ≥ Config.NumRows then
    let buf2 := buf1 ++ [126] ++ [27, 91, 75]
    if y < wrap64 (Config.ScreenRows - 1) then some (buf2 ++ [13, 10]) else some buf2
  else
    match rowText Config with
    | none => none
    | some row => some (buf1 ++ row ++ [27, 91, 75] ++ [13, 10])

/-- The loop `for y := 0; y < ScreenRows; y++` of `drawRows`, by the number of
iterations left. -/
def drawRowsLoop (Config : TermConfig) : Nat → Int → List Nat → Option (List Nat)
  | 0, _, buf => some buf
  | n + 1, y, buf =>
    match drawRow Config y buf with
    | none => none
    | some buf1 => drawRowsLoop Config n (wrap64 (y + 1)) buf1

/-- The function `drawRows` (lines 230-267) on the builder content `buf`; the
loop runs `ScreenRows.toNat` times.  `none` is a panic. -/
def drawRows (Config : TermConfig) (buf : List Nat) : Option (List Nat) :=
  drawRowsLoop Config Config.ScreenRows.toNat 0 buf

/-- The decimal digits of `n`, most significant first, before `acc`; `fuel`
bounds the number of digits. -/
def decimalDigits : Nat → Nat → List Nat → List Nat
  | 0, _, acc => acc
  | fuel + 1, n, acc =>
    if n < 10 then (48 + n) :: acc
    else decimalDigits fuel (n / 10) ((48 + n % 10) :: acc)

/-- The verb `%d` of `fmt.Sprintf` on an `int`: decimal digits, with a minus
sign for a negative value. -/
def formatInt (x : Int) : List Nat :=
  if x < 0 then 45 :: decimalDigits (x.natAbs + 1) x.natAbs []
  else decimalDigits (x.natAbs + 1) x.natAbs []

/-- The function `RefreshScreen` (lines 215-227): the bytes given to
`os.Stdout.Write`, `none` when `drawRows` panics. -/
def RefreshScreen (Config : TermConfig) : Option (List Nat) :=
  let buf : List Nat := []
  let buf1 := buf ++ [27, 91, 63, 50, 53, 108]
  let buf2 := buf1 ++ [27, 91, 72]
  match drawRows Config buf2 with
  | none => none
  | some buf3 =>
    let buf4 := buf3 ++ ([27, 91] ++ formatInt (wrap64 (Config.CursorY + 1)) ++ [59]
      ++ formatInt (wrap64 (Config.CursorX + 1)) ++ [72])
    some (buf4 ++ [27, 91, 63, 50, 53, 104])

/-- A configuration with a `rows` by `cols` viewport, the cursor at the
origin, and the document row `text` when there is one. -/
def viewConfig (rows cols : Int) (text : Option (List Nat)) : TermConfig :=
  { OrigTermios := none, CursorX := 0, CursorY := 0, ScreenRows := rows, ScreenCols := cols,
    NumRows := if text.isSome then 1 else 0,
    Row := { Size := ((text.getD []).length : Int), Text := text.getD [] } }

/-- The text of `n` tilde rows as the specification words it: each row is `~`
followed by clear-to-end-of-line `ESC [ K`, and the rows are separated by
`CR LF`, so that nothing follows the last one. -/
def tildeRows (n : Nat) : List Nat :=
  List.intercalate [13, 10] (List.replicate n [126, 27, 91, 75])

/-- The number of spaces that centre the banner in `cols` columns, as the
specification words it: `(cols - 13) / 2`, and none when the banner is wider
than the viewport. -/
def bannerPadding (cols : Int) : Nat :=
  if 13 ≤ cols then ((cols - 13) / 2).toNat else 0

/-! ## The program (`cmd/gonk/main.go`) -/

/-- Everything outside the program that a run of `main` depends on: the
results of the system calls, the command line, the file, and the key input. -/
structure MainEnv where
  /-- The constants of `golang.org/x/sys/unix`. -/
  k : UnixConsts
  /-- Result of the `TIOCGETA` call of `EnableRawMode`. -/
  getRes : Option GoError
  /-- Result of the `TIOCSETAF` call of `EnableRawMode`. -/
  setRes : Option GoError
  /-- What the `TIOCGWINSZ` call leaves in `errno`, `ws.Row`, `ws.Col`. -/
  errno : Nat
  wsRow : Nat
  wsCol : Nat
  /-- The read of the cursor-position report. -/
  posErr : Option GoError
  posResp : List Nat
  /-- The slice `os.Args`. -/
  args : List (List Nat)
  /-- The results of `os.Open`, `scanner.Scan` with `scanner.Text`, and
  `scanner.Err`. -/
  openErr : Option GoError
  line : Option (List Nat)
  scanErr : Option GoError
  /-- Result of the `TIOCSETAF` call of `DisableRawMode`. -/
  disableRes : Option GoError
  /-- The key input. -/
  stdin : List ReadEvent

/-- How the loop of `main` is left. -/
inductive LoopExit where
  /-- The `return` after `ErrQuit`. -/
  | quit
  /-- The call `log.Fatal(err)`, which ends the process with `os.Exit(1)`. -/
  | fatal (err : GoError)
  /-- A run-time panic inside the loop. -/
  | panicked
  deriving DecidableEq, Repr

/-- The loop of `main` (lines 35-48), by a bound on the number of iterations;
`none` when the bound is used up. -/
def mainLoop : Nat → TermConfig → List ReadEvent → Option (LoopExit × TermConfig)
  | 0, _, _ => none
  | fuel + 1, Config, inp =>
    match RefreshScreen Config with
    | none => some (.panicked, Config)
    | some _ =>
      match ProcessKeyPress Config inp with
      | (.panic, Config1, _) => some (.panicked, Config1)
      | (.ret (some err), Config1, _) =>
        match RefreshScreen Config1 with
        | none => some (.panicked, Config1)
        | some _ => if err = .ErrQuit then some (.quit, Config1) else some (.fatal err, Config1)
      | (.ret none, Config1, rest) => mainLoop fuel Config1 rest

/-- How the process ends. -/
inductive Exit where
  /-- The function `main` returns. -/
  | returned
  /-- The call `os.Exit(1)` of `log.Fatal`: deferred calls are not run. -/
  | osExit
  /-- An unrecovered panic: the deferred calls run, then the process dies. -/
  | panicked
  deriving DecidableEq, Repr

/-- What is observed of a run of `main`: how it ends, how many times
`DisableRawMode` was called, and the attributes the terminal is left with. -/
structure MainRun where
  exit : Exit
  disableCalls : Nat
  tty : Termios
  deriving DecidableEq, Repr

/-- The function `main` (lines 13-49).  The deferred call of `DisableRawMode`
is registered at line 29, after `InitEditor` and `EditorOpen`; it runs when
`main` returns or panics after that line, and does not run on `os.Exit`.
Every call of `ProcessKeyPress` that returns nil consumes input, so
`stdin.length + 1` iterations are enough; `none` cannot occur (see
`main_terminates`). -/
def main (env : MainEnv) (w : World) : Option MainRun :=
  match EnableRawMode env.k env.getRes env.setRes w with
  | (.panic, w1) => some { exit := .panicked, disableCalls := 0, tty := w1.tty }
  | (.ret (some _), w1) => some { exit := .returned, disableCalls := 0, tty := w1.tty }
  | (.ret none, w1) =>
    match InitEditor env.errno env.wsRow env.wsCol env.posErr env.posResp w1.Config with
    | (some _, _) => some { exit := .returned, disableCalls := 0, tty := w1.tty }
    | (none, Config1) =>
      match env.args[1]? with
      | none => some { exit := .panicked, disableCalls := 0, tty := w1.tty }
      | some _ =>
        match EditorOpen env.openErr env.line env.scanErr Config1 with
        | none => some { exit := .panicked, disableCalls := 0, tty := w1.tty }
        | some Config2 =>
          match mainLoop (env.stdin.length + 1) Config2 env.stdin with
          | none => none
          | some (.fatal _, _) => some { exit := .osExit, disableCalls := 0, tty := w1.tty }
          | some (.quit, Config3) =>
            some { exit := .returned, disableCalls := 1,
                   tty := (DisableRawMode env.disableRes { w1 with Config := Config3 }).2.tty }
          | some (.panicked, Config3) =>
            some { exit := .panicked, disableCalls := 1,
                   tty := (DisableRawMode env.disableRes { w1 with Config := Config3 }).2.tty }

/-- A run environment in which every system call succeeds: an 24 by 80
terminal, the file name `f`, a file whose first line is `hello world`, and
the key input `keys`. -/
def sampleEnv (keys : List ReadEvent) : MainEnv :=
  { k := bsdConsts, getRes := none, setRes := none, errno := 0, wsRow := 24, wsCol := 80,
    posErr := none, posResp := [], args := [[103, 111, 110, 107], [102]],
    openErr := none, line := some [104, 101, 108, 108, 111, 32, 119, 111, 114, 108, 100],
    scanErr := none, disableRes := none, stdin := keys }

/-! ## Raw mode: what `DisableRawMode` re-applies -/

theorem storeAt_last (h : List Termios) (t : Termios) (f : Termios → Termios)
    (tty : Termios) (cfg : TermConfig) :
    storeAt (some h.length) f { tty := tty, heap := h ++ [t], Config := cfg }
      = some { tty := tty, heap := h ++ [f t], Config := cfg } := by
  simp [storeAt]

theorem enable_then_disable_tty (k : UnixConsts) (w : World) :
    (EnableRawMode k none none w).1 = .ret none ∧
    (DisableRawMode none (EnableRawMode k none none w).2).1 = .ret none ∧
    (DisableRawMode none (EnableRawMode k none none w).2).2.tty = rawOf k w.tty := by
  obtain ⟨tty, heap, cfg⟩ := w
  simp [EnableRawMode, DisableRawMode, IoctlGetTermios, IoctlSetTermios, storeAt_last, rawOf]

/-- C1: `EnableRawMode` followed by `DisableRawMode`, both succeeding, does not
restore the attributes the terminal had.  `raw` is the pointer stored in
`Config.OrigTermios`, so the raw-mode flags are written into the snapshot and
`DisableRawMode` re-applies the raw attribute set `rawOf k A`: for every
initial attribute set the device ends with `rawOf k A`, and from the cooked
attributes `cookedTermios` (echo, canonical mode and signals on) it ends with
`Lflag = 0x43` instead of `0x5cb`, not equal to the initial attributes. -/
theorem C1_disable_reapplies_raw_attributes :
    (∀ (k : UnixConsts) (w : World),
      (EnableRawMode k none none w).1 = .ret none ∧
      (DisableRawMode none (EnableRawMode k none none w).2).1 = .ret none ∧
      (DisableRawMode none (EnableRawMode k none none w).2).2.tty = rawOf k w.tty) ∧
    (DisableRawMode none
        (EnableRawMode bsdConsts none none (startWorld cookedTermios)).2).2.tty.Lflag = 0x43 ∧
    cookedTermios.Lflag = 0x5cb ∧
    (DisableRawMode none
        (EnableRawMode bsdConsts none none (startWorld cookedTermios)).2).2.tty ≠ cookedTermios :=
  ⟨enable_then_disable_tty, by decide, by decide, by decide⟩

/-! ## Key decoding -/

theorem readUntilTilde_run (w : List Nat) (hw : ∀ b ∈ w, b ≠ 126) (buf : Nat) (seq : List Nat)
    (rest : List ReadEvent) :
    readUntilTilde buf seq (w.map ReadEvent.data ++ ReadEvent.data 126 :: rest)
      = (.ok (126, seq ++ w ++ [126]), rest) := by
  induction w generalizing buf seq with
  | nil => simp [readUntilTilde, readEvent]
  | cons b t ih =>
    have hb : b ≠ 126 := hw b (by simp)
    have ht : ∀ x ∈ t, x ≠ 126 := fun x hx => hw x (by simp [hx])
    simp [readUntilTilde, readEvent, hb, ih ht]

/-- C2: on input `ESC [ d w ~ rest`, with `d` a decimal digit and `w` free of
`~`, `ReadKey` returns with a nil error, leaves `rest`, and the key depends
on `d` alone: `1`, `7` give `HOME_KEY`, `3` gives `DEL_KEY`, `4`, `8` give
`END_KEY`, `5` gives `PAGE_UP`, `6` gives `PAGE_DOWN`, other digits give 0. -/
theorem C2_csi_digit_sequence (d : Nat) (w : List Nat) (rest : List ReadEvent)
    (hd : 48 ≤ d ∧ d ≤ 57) (hw : ∀ b ∈ w, b ≠ 126) :
    ReadKey (.data 27 :: .data 91 :: .data d :: (w.map ReadEvent.data ++ .data 126 :: rest))
      = (.ret (if d = 49 ∨ d = 55 then HOME_KEY
               else if d = 51 then DEL_KEY
               else if d = 52 ∨ d = 56 then END_KEY
               else if d = 53 then PAGE_UP
               else if d = 54 then PAGE_DOWN
               else 0) none, rest) := by
  obtain ⟨h1, h2⟩ := hd
  simp only [ReadKey, readKeyLoop, readEvent, readEscape, stdinRead]
  simp [readUntilTilde_run w hw, tildeSwitch, h1, h2]
  split_ifs <;> first | rfl | omega

theorem C2_csi_digit_sequence_witness :
    (48 ≤ 53 ∧ 53 ≤ 57) ∧ (∀ b ∈ [59, 50], b ≠ 126) ∧
    ReadKey (.data 27 :: .data 91 :: .data 53 ::
        (([59, 50] : List Nat).map ReadEvent.data ++ .data 126 :: [.data 120]))
      = (.ret (if 53 = 49 ∨ 53 = 55 then HOME_KEY
               else if 53 = 51 then DEL_KEY
               else if 53 = 52 ∨ 53 = 56 then END_KEY
               else if 53 = 53 then PAGE_UP
               else if 53 = 54 then PAGE_DOWN
               else 0) none, [.data 120]) :=
  ⟨by decide, by decide, C2_csi_digit_sequence 53 [59, 50] [.data 120] (by decide) (by decide)⟩

/-- C3: on input beginning `ESC [ c` with `c` one of `A`, `B`, `C`, `D`, `H`,
`F`, `ReadKey` consumes those three bytes and returns, with a nil error,
`ARROW_UP`, `ARROW_DOWN`, `ARROW_RIGHT`, `ARROW_LEFT`, `HOME_KEY`, `END_KEY`. -/
theorem C3_csi_letter_keys (rest : List ReadEvent) :
    ReadKey (.data 27 :: .data 91 :: .data 65 :: rest) = (.ret ARROW_UP none, rest) ∧
    ReadKey (.data 27 :: .data 91 :: .data 66 :: rest) = (.ret ARROW_DOWN none, rest) ∧
    ReadKey (.data 27 :: .data 91 :: .data 67 :: rest) = (.ret ARROW_RIGHT none, rest) ∧
    ReadKey (.data 27 :: .data 91 :: .data 68 :: rest) = (.ret ARROW_LEFT none, rest) ∧
    ReadKey (.data 27 :: .data 91 :: .data 72 :: rest) = (.ret HOME_KEY none, rest) ∧
    ReadKey (.data 27 :: .data 91 :: .data 70 :: rest) = (.ret END_KEY none, rest) := by
  simp [ReadKey, readKeyLoop, readEvent, readEscape, stdinRead, arrowSwitch]

/-- C4: on input `ESC O c` the code does not read the third byte: the branch
for `O` indexes `seq[2]` while `seq` holds two bytes, and `ReadKey` panics
with `c` still pending, for every `c`, in particular for `H` and `F`. -/
theorem C4_ss3_panics :
    ReadKey [.data 27, .data 79, .data 72] = (.panic, [.data 72]) ∧
    ReadKey [.data 27, .data 79, .data 70] = (.panic, [.data 70]) ∧
    ∀ (c : Nat) (rest : List ReadEvent),
      ReadKey (.data 27 :: .data 79 :: .data c :: rest) = (.panic, .data c :: rest) := by
  refine ⟨by decide, by decide, ?_⟩
  intro c rest
  simp [ReadKey, readKeyLoop, readEvent, readEscape, stdinRead]

theorem readKey_esc_other (b : Nat) (rest : List ReadEvent) (h1 : b ≠ 91) (h2 : b ≠ 79) :
    ReadKey (.data 27 :: .data b :: rest) = (.panic, rest) := by
  simp [ReadKey, readKeyLoop, readEvent, readEscape, stdinRead, arrowSwitch, h1, h2]

theorem readKey_csi_unknown (c : Nat) (rest : List ReadEvent) (hd : ¬ (48 ≤ c ∧ c ≤ 57))
    (hc : c ≠ 65 ∧ c ≠ 66 ∧ c ≠ 67 ∧ c ≠ 68 ∧ c ≠ 72 ∧ c ≠ 70) :
    ReadKey (.data 27 :: .data 91 :: .data c :: rest) = (.ret 0 none, rest) := by
  obtain ⟨a, b, d, e, f, g⟩ := hc
  simp [ReadKey, readKeyLoop, readEvent, readEscape, stdinRead, arrowSwitch, hd, a, b, d, e, f, g]

/-- C5: on input `ESC x` (second byte neither `[` nor `O`) `ReadKey` does not
return the key 0: `last := seq[2]` indexes past the two bytes of `seq` and the
call panics, also when more input is pending. -/
theorem C5_escape_other_byte_panics :
    ReadKey [.data 27, .data 120] = (.panic, []) ∧
    ReadKey [.data 27, .data 120, .data 65] = (.panic, [.data 65]) ∧
    ReadKey [.data 27, .data 27] = (.panic, []) := by
  decide

/-- C6: when the first byte `b` of the input is not `0x1B`, `ReadKey` returns
`b` with a nil error and consumes that one byte. -/
theorem C6_plain_byte (b : Nat) (rest : List ReadEvent) (hb : b ≠ 27) :
    ReadKey (.data b :: rest) = (.ret b none, rest) := by
  simp [ReadKey, readKeyLoop, readEvent, hb]

theorem C6_plain_byte_witness :
    (97 : Nat) ≠ 27 ∧ ReadKey (.data 97 :: [.data 98]) = (.ret 97 none, [.data 98]) :=
  ⟨by decide, C6_plain_byte 97 [.data 98] (by decide)⟩

/-! ## Commands -/

/-- C7, as stated, fails: the raw byte `0xFF` is neither `0x1B` nor Ctrl+Q,
yet `ProcessKeyPress` treats a `ReadKey` result of 255 as `ARROW_LEFT` and
moves the cursor from column 5 to column 4. -/
theorem C7_raw_byte_noop_counterexample :
    ¬ (∀ (b : Nat) (cfg : TermConfig) (rest : List ReadEvent), b < 256 → b ≠ 27 → b ≠ 17 →
        ProcessKeyPress cfg (.data b :: rest) = (.ret none, cfg, rest)) := by
  intro h
  have h1 := h 255 (sampleConfig 5 5) [] (by decide) (by decide) (by decide)
  have h2 : ProcessKeyPress (sampleConfig 5 5) [.data 255] = (.ret none, sampleConfig 4 5, []) := by
    decide
  rw [h2] at h1
  exact absurd h1 (by decide)

/-- C7, amended: for every input byte `b` other than `0x1B`, Ctrl+Q (`0x11`)
and the key codes 248..255, and every editor state, `ProcessKeyPress` returns
nil, consumes that byte and leaves the whole state unchanged. -/
theorem C7_raw_byte_noop (b : Nat) (cfg : TermConfig) (rest : List ReadEvent)
    (hesc : b ≠ 27) (hquit : b ≠ 17) (hkey : b < 248) :
    ProcessKeyPress cfg (.data b :: rest) = (.ret none, cfg, rest) := by
  have hq : CtrlKey 113 = 17 := by decide
  have e1 : b ≠ 251 := by omega
  have e2 : b ≠ 250 := by omega
  have e3 : b ≠ 253 := by omega
  have e4 : b ≠ 252 := by omega
  have e5 : b ≠ 255 := by omega
  have e6 : b ≠ 254 := by omega
  have e7 : b ≠ 249 := by omega
  have e8 : b ≠ 248 := by omega
  simp [ProcessKeyPress, ReadKey, readKeyLoop, readEvent, keyPress, hq, hesc, hquit,
    PAGE_UP, PAGE_DOWN, ARROW_UP, ARROW_DOWN, ARROW_LEFT, ARROW_RIGHT, HOME_KEY, END_KEY,
    e1, e2, e3, e4, e5, e6, e7, e8]

theorem C7_raw_byte_noop_witness :
    (97 : Nat) ≠ 27 ∧ (97 : Nat) ≠ 17 ∧ (97 : Nat) < 248 ∧
    ProcessKeyPress (sampleConfig 5 5) (.data 97 :: [.data 98])
      = (.ret none, sampleConfig 5 5, [.data 98]) :=
  ⟨by decide, by decide, by decide,
    C7_raw_byte_noop 97 (sampleConfig 5 5) [.data 98] (by decide) (by decide) (by decide)⟩

theorem wrap64_eq_self (x : Int) (h : IsInt64 x) : wrap64 x = x := by
  unfold IsInt64 at h
  unfold wrap64
  omega

theorem moveCursor_left (cfg : TermConfig) (hx : 0 ≤ cfg.CursorX)
    (hc : cfg.CursorX ≤ cfg.ScreenCols - 1) (hgo : IsInt64 cfg.ScreenCols) :
    moveCursor ARROW_LEFT cfg = { cfg with CursorX := max (cfg.CursorX - 1) 0 } := by
  obtain ⟨p, x, y, r, c, n, row⟩ := cfg
  unfold IsInt64 at hgo
  simp only at hx hc hgo
  have hw : wrap64 (x - 1) = x - 1 := wrap64_eq_self _ (by unfold IsInt64; omega)
  simp only [moveCursor, if_true, hw]
  split_ifs with h
  · simp only [TermConfig.mk.injEq, true_and, and_true]; omega
  · simp only [TermConfig.mk.injEq, true_and, and_true]; omega

theorem moveCursor_right (cfg : TermConfig) (hx : 0 ≤ cfg.CursorX)
    (hc : cfg.CursorX ≤ cfg.ScreenCols - 1) (hgo : IsInt64 cfg.ScreenCols) :
    moveCursor ARROW_RIGHT cfg
      = { cfg with CursorX := min (cfg.CursorX + 1) (cfg.ScreenCols - 1) } := by
  obtain ⟨p, x, y, r, c, n, row⟩ := cfg
  unfold IsInt64 at hgo
  simp only at hx hc hgo
  have hw : wrap64 (x + 1) = x + 1 := wrap64_eq_self _ (by unfold IsInt64; omega)
  have hv : wrap64 (c - 1) = c - 1 := wrap64_eq_self _ (by unfold IsInt64; omega)
  have hk : ARROW_RIGHT ≠ ARROW_LEFT := by decide
  simp only [moveCursor, if_true, if_neg hk, hw, hv]
  split_ifs with h
  · simp only [TermConfig.mk.injEq, true_and, and_true]; omega
  · simp only [TermConfig.mk.injEq, true_and, and_true]; omega

theorem moveCursor_up (cfg : TermConfig) (hy : 0 ≤ cfg.CursorY)
    (hr : cfg.CursorY ≤ cfg.ScreenRows - 1) (hgo : IsInt64 cfg.ScreenRows) :
    moveCursor ARROW_UP cfg = { cfg with CursorY := max (cfg.CursorY - 1) 0 } := by
  obtain ⟨p, x, y, r, c, n, row⟩ := cfg
  unfold IsInt64 at hgo
  simp only at hy hr hgo
  have hw : wrap64 (y - 1) = y - 1 := wrap64_eq_self _ (by unfold IsInt64; omega)
  have hk1 : ARROW_UP ≠ ARROW_LEFT := by decide
  have hk2 : ARROW_UP ≠ ARROW_RIGHT := by decide
  simp only [moveCursor, if_true, if_neg hk1, if_neg hk2, hw]
  split_ifs with h
  · simp only [TermConfig.mk.injEq, true_and, and_true]; omega
  · simp only [TermConfig.mk.injEq, true_and, and_true]; omega

theorem moveCursor_down (cfg : TermConfig) (hy : 0 ≤ cfg.CursorY)
    (hr : cfg.CursorY ≤ cfg.ScreenRows - 1) (hgo : IsInt64 cfg.ScreenRows) :
    moveCursor ARROW_DOWN cfg
      = { cfg with CursorY := min (cfg.CursorY + 1) (cfg.ScreenRows - 1) } := by
  obtain ⟨p, x, y, r, c, n, row⟩ := cfg
  unfold IsInt64 at hgo
  simp only at hy hr hgo
  have hw : wrap64 (y + 1) = y + 1 := wrap64_eq_self _ (by unfold IsInt64; omega)
  have hv : wrap64 (r - 1) = r - 1 := wrap64_eq_self _ (by unfold IsInt64; omega)
  have hk1 : ARROW_DOWN ≠ ARROW_LEFT := by decide
  have hk2 : ARROW_DOWN ≠ ARROW_RIGHT := by decide
  have hk3 : ARROW_DOWN ≠ ARROW_UP := by decide
  simp only [moveCursor, if_true, if_neg hk1, if_neg hk2, if_neg hk3, hw, hv]
  split_ifs with h
  · simp only [TermConfig.mk.injEq, true_and, and_true]; omega
  · simp only [TermConfig.mk.injEq, true_and, and_true]; omega

/-- C8: with the cursor inside the viewport, `moveCursor` moves it by one unit
clamped at the viewport edge and changes nothing else: `ARROW_LEFT` gives
`max (CursorX-1) 0`, `ARROW_RIGHT` gives `min (CursorX+1) (ScreenCols-1)`,
`ARROW_UP` gives `max (CursorY-1) 0`, `ARROW_DOWN` gives
`min (CursorY+1) (ScreenRows-1)`; a move at the matching boundary leaves the
state unchanged. -/
theorem C8_moveCursor_clamped (cfg : TermConfig)
    (hrows : IsInt64 cfg.ScreenRows) (hcols : IsInt64 cfg.ScreenCols)
    (hin : CursorInViewport cfg) :
    moveCursor ARROW_LEFT cfg = { cfg with CursorX := max (cfg.CursorX - 1) 0 } ∧
    moveCursor ARROW_RIGHT cfg
      = { cfg with CursorX := min (cfg.CursorX + 1) (cfg.ScreenCols - 1) } ∧
    moveCursor ARROW_UP cfg = { cfg with CursorY := max (cfg.CursorY - 1) 0 } ∧
    moveCursor ARROW_DOWN cfg
      = { cfg with CursorY := min (cfg.CursorY + 1) (cfg.ScreenRows - 1) } ∧
    (cfg.CursorX = 0 → moveCursor ARROW_LEFT cfg = cfg) ∧
    (cfg.CursorX = cfg.ScreenCols - 1 → moveCursor ARROW_RIGHT cfg = cfg) ∧
    (cfg.CursorY = 0 → moveCursor ARROW_UP cfg = cfg) ∧
    (cfg.CursorY = cfg.ScreenRows - 1 → moveCursor ARROW_DOWN cfg = cfg) := by
  obtain ⟨hx, hc, hy, hr⟩ := hin
  have hl := moveCursor_left cfg hx hc hcols
  have hrt := moveCursor_right cfg hx hc hcols
  have hu := moveCursor_up cfg hy hr hrows
  have hd := moveCursor_down cfg hy hr hrows
  refine ⟨hl, hrt, hu, hd, ?_, ?_, ?_, ?_⟩
  · intro h
    rw [hl]
    obtain ⟨p, x, y, r, c, n, row⟩ := cfg
    simp only at h
    simp [h]
  · intro h
    rw [hrt]
    obtain ⟨p, x, y, r, c, n, row⟩ := cfg
    simp only at h
    simp [h]
  · intro h
    rw [hu]
    obtain ⟨p, x, y, r, c, n, row⟩ := cfg
    simp only at h
    simp [h]
  · intro h
    rw [hd]
    obtain ⟨p, x, y, r, c, n, row⟩ := cfg
    simp only at h
    simp [h]

theorem C8_moveCursor_clamped_witness :
    IsInt64 (sampleConfig 0 23).ScreenRows ∧ IsInt64 (sampleConfig 0 23).ScreenCols ∧
    CursorInViewport (sampleConfig 0 23) ∧
    moveCursor ARROW_LEFT (sampleConfig 0 23) = sampleConfig 0 23 ∧
    moveCursor ARROW_DOWN (sampleConfig 0 23) = sampleConfig 0 23 :=
  ⟨by decide, by decide, by decide,
    (C8_moveCursor_clamped (sampleConfig 0 23) (by decide) (by decide) (by decide)).2.2.2.2.1 rfl,
    (C8_moveCursor_clamped (sampleConfig 0 23) (by decide) (by decide)
      (by decide)).2.2.2.2.2.2.2 rfl⟩

theorem pageLoop_up (n : Nat) (cfg : TermConfig) (hy : 0 ≤ cfg.CursorY)
    (hr : cfg.CursorY ≤ cfg.ScreenRows - 1) (hgo : IsInt64 cfg.ScreenRows) :
    pageLoop PAGE_UP n cfg = { cfg with CursorY := max (cfg.CursorY - n) 0 } := by
  induction n generalizing cfg with
  | zero =>
    obtain ⟨p, x, y, r, c, m, row⟩ := cfg
    simp only at hy
    simp [pageLoop, hy]
  | succ k ih =>
    simp only [pageLoop, if_true]
    rw [moveCursor_up cfg hy hr hgo]
    obtain ⟨p, x, y, r, c, m, row⟩ := cfg
    simp only at hy hr hgo
    rw [ih _ (by simp) (by simp only; omega) hgo]
    simp only [TermConfig.mk.injEq, true_and, and_true]
    push_cast
    omega

theorem pageLoop_down (n : Nat) (cfg : TermConfig) (hy : 0 ≤ cfg.CursorY)
    (hr : cfg.CursorY ≤ cfg.ScreenRows - 1) (hgo : IsInt64 cfg.ScreenRows) :
    pageLoop PAGE_DOWN n cfg
      = { cfg with CursorY := min (cfg.CursorY + n) (cfg.ScreenRows - 1) } := by
  have hk : PAGE_DOWN ≠ PAGE_UP := by decide
  induction n generalizing cfg with
  | zero =>
    obtain ⟨p, x, y, r, c, m, row⟩ := cfg
    simp only at hr
    simp [pageLoop, hr]
  | succ k ih =>
    simp only [pageLoop, if_neg hk]
    rw [moveCursor_down cfg hy hr hgo]
    obtain ⟨p, x, y, r, c, m, row⟩ := cfg
    simp only at hy hr hgo
    rw [ih _ (by simp only; omega) (by simp only; omega) hgo]
    simp only [TermConfig.mk.injEq, true_and, and_true]
    push_cast
    omega

theorem pageLoop_eq_iterate_up (n : Nat) (cfg : TermConfig) :
    pageLoop PAGE_UP n cfg = (moveCursor ARROW_UP)^[n] cfg := by
  induction n generalizing cfg with
  | zero => rfl
  | succ k ih => simp only [pageLoop, if_true, Function.iterate_succ_apply, ih]

theorem pageLoop_eq_iterate_down (n : Nat) (cfg : TermConfig) :
    pageLoop PAGE_DOWN n cfg = (moveCursor ARROW_DOWN)^[n] cfg := by
  have hk : PAGE_DOWN ≠ PAGE_UP := by decide
  induction n generalizing cfg with
  | zero => rfl
  | succ k ih => simp only [pageLoop, if_neg hk, Function.iterate_succ_apply, ih]

theorem keyPress_page_up (cfg : TermConfig) :
    keyPress PAGE_UP cfg = (none, pageLoop PAGE_UP cfg.ScreenRows.toNat cfg) := by
  have hq : PAGE_UP ≠ CtrlKey 113 := by decide
  simp [keyPress, hq]

theorem keyPress_page_down (cfg : TermConfig) :
    keyPress PAGE_DOWN cfg = (none, pageLoop PAGE_DOWN cfg.ScreenRows.toNat cfg) := by
  have hq : PAGE_DOWN ≠ CtrlKey 113 := by decide
  simp [keyPress, hq]

theorem readKey_page_up (rest : List ReadEvent) :
    ReadKey (.data 27 :: .data 91 :: .data 53 :: .data 126 :: rest) = (.ret PAGE_UP none, rest) := by
  simp [ReadKey, readKeyLoop, readEvent, readEscape, stdinRead, readUntilTilde, tildeSwitch]

theorem readKey_page_down (rest : List ReadEvent) :
    ReadKey (.data 27 :: .data 91 :: .data 54 :: .data 126 :: rest)
      = (.ret PAGE_DOWN none, rest) := by
  simp [ReadKey, readKeyLoop, readEvent, readEscape, stdinRead, readUntilTilde, tildeSwitch]

theorem keyPress_page_up_top (cfg : TermConfig) (hgo : IsInt64 cfg.ScreenRows)
    (hy : 0 ≤ cfg.CursorY) (hr : cfg.CursorY ≤ cfg.ScreenRows - 1) :
    keyPress PAGE_UP cfg = (none, { cfg with CursorY := 0 }) := by
  rw [keyPress_page_up, pageLoop_up _ cfg hy hr hgo]
  obtain ⟨p, x, y, r, c, m, row⟩ := cfg
  simp only at hy hr
  simp only [Prod.mk.injEq, TermConfig.mk.injEq, true_and, and_true]
  have : ((r.toNat : Nat) : Int) = r := Int.toNat_of_nonneg (by omega)
  omega

theorem keyPress_page_down_bottom (cfg : TermConfig) (hgo : IsInt64 cfg.ScreenRows)
    (hy : 0 ≤ cfg.CursorY) (hr : cfg.CursorY ≤ cfg.ScreenRows - 1) :
    keyPress PAGE_DOWN cfg = (none, { cfg with CursorY := cfg.ScreenRows - 1 }) := by
  rw [keyPress_page_down, pageLoop_down _ cfg hy hr hgo]
  obtain ⟨p, x, y, r, c, m, row⟩ := cfg
  simp only at hy hr
  simp only [Prod.mk.injEq, TermConfig.mk.injEq, true_and, and_true]
  have : ((r.toNat : Nat) : Int) = r := Int.toNat_of_nonneg (by omega)
  omega

/-- C10: with `ScreenRows >= 1` and `0 <= CursorY <= ScreenRows-1`, the command
for `PAGE_UP` ends with `CursorY = 0` and the one for `PAGE_DOWN` with
`CursorY = ScreenRows-1`, every other field (so `CursorX`) unchanged and nil
returned; the state is the one that `ScreenRows` single vertical moves give,
and `ProcessKeyPress` reaches it on the inputs `ESC [ 5 ~` and `ESC [ 6 ~`. -/
theorem C10_page_keys (cfg : TermConfig) (rest : List ReadEvent)
    (hgo : IsInt64 cfg.ScreenRows) (hrows : 1 ≤ cfg.ScreenRows)
    (hy : 0 ≤ cfg.CursorY ∧ cfg.CursorY ≤ cfg.ScreenRows - 1) :
    keyPress PAGE_UP cfg = (none, { cfg with CursorY := 0 }) ∧
    keyPress PAGE_DOWN cfg = (none, { cfg with CursorY := cfg.ScreenRows - 1 }) ∧
    (moveCursor ARROW_UP)^[cfg.ScreenRows.toNat] cfg = { cfg with CursorY := 0 } ∧
    (moveCursor ARROW_DOWN)^[cfg.ScreenRows.toNat] cfg
      = { cfg with CursorY := cfg.ScreenRows - 1 } ∧
    ProcessKeyPress cfg (.data 27 :: .data 91 :: .data 53 :: .data 126 :: rest)
      = (.ret none, { cfg with CursorY := 0 }, rest) ∧
    ProcessKeyPress cfg (.data 27 :: .data 91 :: .data 54 :: .data 126 :: rest)
      = (.ret none, { cfg with CursorY := cfg.ScreenRows - 1 }, rest) := by
  have _hpos : 0 < cfg.ScreenRows := by omega
  have hup := keyPress_page_up_top cfg hgo hy.1 hy.2
  have hdown := keyPress_page_down_bottom cfg hgo hy.1 hy.2
  refine ⟨hup, hdown, ?_, ?_, ?_, ?_⟩
  · rw [← pageLoop_eq_iterate_up]
    have h := hup
    rw [keyPress_page_up] at h
    exact (Prod.mk.inj h).2
  · rw [← pageLoop_eq_iterate_down]
    have h := hdown
    rw [keyPress_page_down] at h
    exact (Prod.mk.inj h).2
  · simp only [ProcessKeyPress, readKey_page_up, hup]
  · simp only [ProcessKeyPress, readKey_page_down, hdown]

theorem C10_page_keys_witness :
    IsInt64 (sampleConfig 7 5).ScreenRows ∧ 1 ≤ (sampleConfig 7 5).ScreenRows ∧
    (0 ≤ (sampleConfig 7 5).CursorY ∧
      (sampleConfig 7 5).CursorY ≤ (sampleConfig 7 5).ScreenRows - 1) ∧
    keyPress PAGE_UP (sampleConfig 7 5) = (none, sampleConfig 7 0) ∧
    keyPress PAGE_DOWN (sampleConfig 7 5) = (none, sampleConfig 7 23) :=
  ⟨by decide, by decide, by decide,
    (C10_page_keys (sampleConfig 7 5) [] (by decide) (by decide) (by decide)).1,
    (C10_page_keys (sampleConfig 7 5) [] (by decide) (by decide) (by decide)).2.1⟩

/-! ## The cursor stays inside the viewport -/

theorem Atoi_isInt64 (ds : List Nat) : IsInt64 (Atoi ds) := by
  unfold Atoi IsInt64
  split_ifs with h
  · constructor <;> omega
  · constructor <;> omega

theorem InitEditor_ok (errno wsRow wsCol : Nat) (readErr : Option GoError) (resp : List Nat)
    (c0 c : TermConfig) (h : InitEditor errno wsRow wsCol readErr resp c0 = (none, c)) :
    c.CursorX = 0 ∧ c.CursorY = 0 ∧ IsInt64 c.ScreenRows ∧ IsInt64 c.ScreenCols := by
  unfold InitEditor GetWindowSize at h
  by_cases hio : errno = 0 ∧ wsCol % 65536 ≠ 0
  · rw [if_pos hio] at h
    simp only [Prod.mk.injEq, true_and] at h
    subst h
    refine ⟨rfl, rfl, ?_, ?_⟩ <;> (unfold IsInt64; simp only; omega)
  · rw [if_neg hio] at h
    unfold getCursorPosition at h
    cases readErr with
    | some e => simp at h
    | none =>
      cases hf : findReport (List.take 32 resp) with
      | none => simp [hf] at h
      | some m =>
        obtain ⟨m1, m2⟩ := m
        simp only [hf, Prod.mk.injEq, true_and] at h
        subst h
        exact ⟨rfl, rfl, Atoi_isInt64 m1, Atoi_isInt64 m2⟩

theorem moveCursor_dims (key : Nat) (cfg : TermConfig) :
    (moveCursor key cfg).ScreenRows = cfg.ScreenRows ∧
    (moveCursor key cfg).ScreenCols = cfg.ScreenCols := by
  unfold moveCursor
  split_ifs <;> exact ⟨rfl, rfl⟩

theorem moveCursor_inv (key : Nat) (cfg : TermConfig)
    (hrows : IsInt64 cfg.ScreenRows) (hcols : IsInt64 cfg.ScreenCols)
    (hin : CursorInViewport cfg) : CursorInViewport (moveCursor key cfg) := by
  obtain ⟨hx, hc, hy, hr⟩ := hin
  by_cases h1 : key = ARROW_LEFT
  · rw [h1, moveCursor_left cfg hx hc hcols]
    unfold CursorInViewport; simp only; omega
  by_cases h2 : key = ARROW_RIGHT
  · rw [h2, moveCursor_right cfg hx hc hcols]
    unfold CursorInViewport; simp only; omega
  by_cases h3 : key = ARROW_UP
  · rw [h3, moveCursor_up cfg hy hr hrows]
    unfold CursorInViewport; simp only; omega
  by_cases h4 : key = ARROW_DOWN
  · rw [h4, moveCursor_down cfg hy hr hrows]
    unfold CursorInViewport; simp only; omega
  have : moveCursor key cfg = cfg := by simp [moveCursor, h1, h2, h3, h4]
  rw [this]
  exact ⟨hx, hc, hy, hr⟩

theorem pageLoop_inv (c n : Nat) (cfg : TermConfig)
    (hrows : IsInt64 cfg.ScreenRows) (hcols : IsInt64 cfg.ScreenCols)
    (hin : CursorInViewport cfg) :
    CursorInViewport (pageLoop c n cfg) ∧
    (pageLoop c n cfg).ScreenRows = cfg.ScreenRows ∧
    (pageLoop c n cfg).ScreenCols = cfg.ScreenCols := by
  induction n generalizing cfg with
  | zero => exact ⟨hin, rfl, rfl⟩
  | succ k ih =>
    simp only [pageLoop]
    split_ifs with hc
    · have hd := moveCursor_dims ARROW_UP cfg
      have hi := moveCursor_inv ARROW_UP cfg hrows hcols hin
      have := ih (moveCursor ARROW_UP cfg) (hd.1 ▸ hrows) (hd.2 ▸ hcols) hi
      exact ⟨this.1, this.2.1.trans hd.1, this.2.2.trans hd.2⟩
    · have hd := moveCursor_dims ARROW_DOWN cfg
      have hi := moveCursor_inv ARROW_DOWN cfg hrows hcols hin
      have := ih (moveCursor ARROW_DOWN cfg) (hd.1 ▸ hrows) (hd.2 ▸ hcols) hi
      exact ⟨this.1, this.2.1.trans hd.1, this.2.2.trans hd.2⟩

theorem keyPress_inv (c : Nat) (cfg : TermConfig)
    (hrows : IsInt64 cfg.ScreenRows) (hcols : IsInt64 cfg.ScreenCols)
    (hcpos : 0 < cfg.ScreenCols) (hin : CursorInViewport cfg) :
    CursorInViewport (keyPress c cfg).2 ∧
    (keyPress c cfg).2.ScreenRows = cfg.ScreenRows ∧
    (keyPress c cfg).2.ScreenCols = cfg.ScreenCols := by
  unfold keyPress
  split_ifs with h1 h2 h3 h4 h5
  · exact ⟨hin, rfl, rfl⟩
  · exact pageLoop_inv c _ cfg hrows hcols hin
  · exact ⟨moveCursor_inv c cfg hrows hcols hin, moveCursor_dims c cfg⟩
  · obtain ⟨hx, hc, hy, hr⟩ := hin
    refine ⟨?_, rfl, rfl⟩
    unfold CursorInViewport; simp only; omega
  · obtain ⟨hx, hc, hy, hr⟩ := hin
    have hw : wrap64 (cfg.ScreenCols - 1) = cfg.ScreenCols - 1 :=
      wrap64_eq_self _ (by unfold IsInt64 at *; omega)
    refine ⟨?_, rfl, rfl⟩
    unfold CursorInViewport; simp only [hw]; omega
  · exact ⟨hin, rfl, rfl⟩

theorem ProcessKeyPress_inv (cfg : TermConfig) (inp : List ReadEvent)
    (hrows : IsInt64 cfg.ScreenRows) (hcols : IsInt64 cfg.ScreenCols)
    (hcpos : 0 < cfg.ScreenCols) (hin : CursorInViewport cfg) :
    CursorInViewport (ProcessKeyPress cfg inp).2.1 ∧
    (ProcessKeyPress cfg inp).2.1.ScreenRows = cfg.ScreenRows ∧
    (ProcessKeyPress cfg inp).2.1.ScreenCols = cfg.ScreenCols := by
  unfold ProcessKeyPress
  rcases hk : ReadKey inp with ⟨res, rest⟩
  cases res with
  | panic => exact ⟨hin, rfl, rfl⟩
  | ret c err =>
    cases err with
    | some e => exact ⟨hin, rfl, rfl⟩
    | none => exact keyPress_inv c cfg hrows hcols hcpos hin

theorem EditorOpen_cursor (openErr : Option GoError) (line : Option (List Nat))
    (scanErr : Option GoError) (c c1 : TermConfig)
    (h : EditorOpen openErr line scanErr c = some c1) :
    c1.CursorX = c.CursorX ∧ c1.CursorY = c.CursorY ∧
    c1.ScreenRows = c.ScreenRows ∧ c1.ScreenCols = c.ScreenCols := by
  unfold EditorOpen at h
  cases openErr with
  | some e => simp at h
  | none =>
    cases scanErr with
    | some e => simp at h
    | none =>
      cases line with
      | none =>
        simp only [Option.some.injEq] at h
        subst h
        exact ⟨rfl, rfl, rfl, rfl⟩
      | some l =>
        simp only [Option.some.injEq] at h
        subst h
        exact ⟨rfl, rfl, rfl, rfl⟩

theorem reachable_inv (r : TermConfig) (h : Reachable r) :
    CursorInViewport r ∧ IsInt64 r.ScreenRows ∧ IsInt64 r.ScreenCols ∧
    0 < r.ScreenRows ∧ 0 < r.ScreenCols := by
  induction h with
  | init errno wsRow wsCol readErr resp c0 c hinit hrows hcols =>
    obtain ⟨hx, hy, h1, h2⟩ := InitEditor_ok errno wsRow wsCol readErr resp c0 c hinit
    refine ⟨?_, h1, h2, hrows, hcols⟩
    unfold CursorInViewport
    omega
  | opened openErr line scanErr c c1 _ hopen ih =>
    obtain ⟨hx, hy, hr, hc⟩ := EditorOpen_cursor openErr line scanErr c c1 hopen
    obtain ⟨hin, h1, h2, h3, h4⟩ := ih
    unfold CursorInViewport at hin ⊢
    rw [hx, hy, hr, hc]
    exact ⟨hin, h1, h2, h3, h4⟩
  | key c inp _ ih =>
    obtain ⟨hin, h1, h2, h3, h4⟩ := ih
    obtain ⟨a, b, d⟩ := ProcessKeyPress_inv c inp h1 h2 h4 hin
    rw [b, d]
    exact ⟨a, h1, h2, h3, h4⟩

/-- C9: the cursor stays inside the viewport.  When `InitEditor` succeeds with
`ScreenRows > 0` and `ScreenCols > 0`, then `0 <= CursorX <= ScreenCols-1` and
`0 <= CursorY <= ScreenRows-1` hold; with a positive viewport the predicate is
preserved by the command for every key value `key` and by `ProcessKeyPress` on
every input, which also keep the viewport; hence it holds in every state
reachable from a successful `InitEditor`. -/
theorem C9_cursor_in_viewport
    (errno wsRow wsCol : Nat) (readErr : Option GoError) (resp : List Nat) (c0 c : TermConfig)
    (key : Nat) (cfg : TermConfig) (inp : List ReadEvent) (r : TermConfig) :
    (InitEditor errno wsRow wsCol readErr resp c0 = (none, c) →
      0 < c.ScreenRows → 0 < c.ScreenCols → CursorInViewport c) ∧
    (IsInt64 cfg.ScreenRows → IsInt64 cfg.ScreenCols →
      0 < cfg.ScreenRows → 0 < cfg.ScreenCols → CursorInViewport cfg →
        CursorInViewport (keyPress key cfg).2 ∧
        (keyPress key cfg).2.ScreenRows = cfg.ScreenRows ∧
        (keyPress key cfg).2.ScreenCols = cfg.ScreenCols ∧
        CursorInViewport (ProcessKeyPress cfg inp).2.1 ∧
        (ProcessKeyPress cfg inp).2.1.ScreenRows = cfg.ScreenRows ∧
        (ProcessKeyPress cfg inp).2.1.ScreenCols = cfg.ScreenCols) ∧
    (Reachable r → CursorInViewport r) := by
  refine ⟨?_, ?_, ?_⟩
  · intro hinit hrows hcols
    exact (reachable_inv c (Reachable.init errno wsRow wsCol readErr resp c0 c hinit hrows hcols)).1
  · intro h1 h2 _ h4 hin
    obtain ⟨a, b, d⟩ := keyPress_inv key cfg h1 h2 h4 hin
    obtain ⟨e, f, g⟩ := ProcessKeyPress_inv cfg inp h1 h2 h4 hin
    exact ⟨a, b, d, e, f, g⟩
  · intro h
    exact (reachable_inv r h).1

theorem C9_cursor_in_viewport_witness :
    InitEditor 0 24 80 none [] (sampleConfig 3 3) = (none, sampleConfig 0 0) ∧
    CursorInViewport (sampleConfig 0 0) ∧
    CursorInViewport (sampleConfig 79 0) ∧
    CursorInViewport (keyPress ARROW_RIGHT (sampleConfig 79 0)).2 ∧
    CursorInViewport (ProcessKeyPress (sampleConfig 79 0) [.data 248]).2.1 ∧
    Reachable (ProcessKeyPress (sampleConfig 0 0) [.data 254]).2.1 ∧
    CursorInViewport (ProcessKeyPress (sampleConfig 0 0) [.data 254]).2.1 :=
  ⟨by decide,
    (C9_cursor_in_viewport 0 24 80 none [] (sampleConfig 3 3) (sampleConfig 0 0) ARROW_RIGHT
      (sampleConfig 79 0) [.data 248] (sampleConfig 0 0)).1 (by decide) (by decide) (by decide),
    by decide,
    ((C9_cursor_in_viewport 0 24 80 none [] (sampleConfig 3 3) (sampleConfig 0 0) ARROW_RIGHT
      (sampleConfig 79 0) [.data 248] (sampleConfig 0 0)).2.1 (by decide) (by decide) (by decide)
      (by decide) (by decide)).1,
    ((C9_cursor_in_viewport 0 24 80 none [] (sampleConfig 3 3) (sampleConfig 0 0) ARROW_RIGHT
      (sampleConfig 79 0) [.data 248] (sampleConfig 0 0)).2.1 (by decide) (by decide) (by decide)
      (by decide) (by decide)).2.2.2.1,
    Reachable.key (sampleConfig 0 0) [.data 254]
      (Reachable.init 0 24 80 none [] (sampleConfig 3 3) (sampleConfig 0 0) (by decide)
        (by decide) (by decide)),
    (C9_cursor_in_viewport 0 24 80 none [] (sampleConfig 3 3) (sampleConfig 0 0) ARROW_RIGHT
      (sampleConfig 79 0) [.data 248] (ProcessKeyPress (sampleConfig 0 0) [.data 254]).2.1).2.2
      (Reachable.key (sampleConfig 0 0) [.data 254]
        (Reachable.init 0 24 80 none [] (sampleConfig 3 3) (sampleConfig 0 0) (by decide)
          (by decide) (by decide)))⟩

/-! ## Home, End and Quit -/

theorem readKey_home (rest : List ReadEvent) :
    ReadKey (.data 27 :: .data 91 :: .data 72 :: rest) = (.ret HOME_KEY none, rest) := by
  simp [ReadKey, readKeyLoop, readEvent, readEscape, stdinRead, arrowSwitch]

theorem readKey_end (rest : List ReadEvent) :
    ReadKey (.data 27 :: .data 91 :: .data 70 :: rest) = (.ret END_KEY none, rest) := by
  simp [ReadKey, readKeyLoop, readEvent, readEscape, stdinRead, arrowSwitch]

theorem keyPress_home (cfg : TermConfig) :
    keyPress HOME_KEY cfg = (none, { cfg with CursorX := 0 }) := by
  have hq : CtrlKey 113 = 17 := by decide
  simp [keyPress, hq, HOME_KEY, PAGE_UP, PAGE_DOWN, ARROW_UP, ARROW_DOWN, ARROW_LEFT, ARROW_RIGHT]

theorem keyPress_end (cfg : TermConfig) :
    keyPress END_KEY cfg = (none, { cfg with CursorX := wrap64 (cfg.ScreenCols - 1) }) := by
  have hq : CtrlKey 113 = 17 := by decide
  simp [keyPress, hq, HOME_KEY, END_KEY, PAGE_UP, PAGE_DOWN, ARROW_UP, ARROW_DOWN, ARROW_LEFT,
    ARROW_RIGHT]

/-- C11: for every state, the command for `HOME_KEY` sets `CursorX` to 0 and the
one for `END_KEY` sets it to `ScreenCols-1` (the value of Go's `int`
subtraction, `wrap64 (ScreenCols - 1)`, which is the number `ScreenCols - 1`
for every `int` above the least one); every other field is unchanged and nil
is returned, also through `ProcessKeyPress` on the inputs `ESC [ H` and
`ESC [ F`. -/
theorem C11_home_end_keys (cfg : TermConfig) (rest : List ReadEvent) :
    keyPress HOME_KEY cfg = (none, { cfg with CursorX := 0 }) ∧
    keyPress END_KEY cfg = (none, { cfg with CursorX := wrap64 (cfg.ScreenCols - 1) }) ∧
    ProcessKeyPress cfg (.data 27 :: .data 91 :: .data 72 :: rest)
      = (.ret none, { cfg with CursorX := 0 }, rest) ∧
    ProcessKeyPress cfg (.data 27 :: .data 91 :: .data 70 :: rest)
      = (.ret none, { cfg with CursorX := wrap64 (cfg.ScreenCols - 1) }, rest) ∧
    (IsInt64 cfg.ScreenCols → cfg.ScreenCols ≠ -9223372036854775808 →
      wrap64 (cfg.ScreenCols - 1) = cfg.ScreenCols - 1) := by
  refine ⟨keyPress_home cfg, keyPress_end cfg, ?_, ?_, ?_⟩
  · simp only [ProcessKeyPress, readKey_home, keyPress_home]
  · simp only [ProcessKeyPress, readKey_end, keyPress_end]
  · intro h1 h2
    apply wrap64_eq_self
    unfold IsInt64 at *
    omega

theorem C11_home_end_keys_witness :
    IsInt64 (sampleConfig 5 5).ScreenCols ∧
    (sampleConfig 5 5).ScreenCols ≠ -9223372036854775808 ∧
    keyPress HOME_KEY (sampleConfig 5 5) = (none, sampleConfig 0 5) ∧
    wrap64 ((sampleConfig 5 5).ScreenCols - 1) = (sampleConfig 5 5).ScreenCols - 1 :=
  ⟨by decide, by decide, (C11_home_end_keys (sampleConfig 5 5) []).1,
    (C11_home_end_keys (sampleConfig 5 5) []).2.2.2.2 (by decide) (by decide)⟩

/-- C12: the command step returns `ErrQuit` exactly for the key value
`CtrlKey('q')`, which is `0x11`; it then leaves the state unchanged, and for
every other key value it returns nil. -/
theorem C12_quit_iff_ctrl_q (c : Nat) (cfg : TermConfig) :
    CtrlKey 113 = 0x11 ∧
    ((keyPress c cfg).1 = some GoError.ErrQuit ↔ c = CtrlKey 113) ∧
    (keyPress c cfg).1 = (if c = 0x11 then some GoError.ErrQuit else none) ∧
    keyPress (CtrlKey 113) cfg = (some GoError.ErrQuit, cfg) := by
  have hq : CtrlKey 113 = 17 := by decide
  refine ⟨hq, ?_, ?_, ?_⟩
  · unfold keyPress
    rw [hq]
    split_ifs <;> simp_all
  · unfold keyPress
    rw [hq]
    split_ifs <;> simp_all
  · simp [keyPress]

/-! ## Rendering -/

theorem tildeRows_zero : tildeRows 0 = [] := by
  simp [tildeRows, List.intercalate]

theorem tildeRows_one : tildeRows 1 = [126, 27, 91, 75] := by
  simp [tildeRows, List.intercalate]

theorem tildeRows_succ_succ (n : Nat) :
    tildeRows (n + 2) = [126, 27, 91, 75] ++ [13, 10] ++ tildeRows (n + 1) := by
  simp [tildeRows, List.intercalate, List.replicate_succ]

theorem drawBanner_none (cfg : TermConfig) (y : Int) (buf : List Nat)
    (hb : ¬ (cfg.NumRows = 0 ∧ y = 0)) : drawBanner cfg y buf = buf := by
  simp only [drawBanner, if_neg hb]

theorem drawRowsLoop_tilde (cfg : TermConfig) (hgo : IsInt64 cfg.ScreenRows) (n : Nat) (y : Int)
    (buf : List Nat) (hy : 0 ≤ y) (hn : cfg.NumRows ≤ y) (hb : ¬ (cfg.NumRows = 0 ∧ y = 0))
    (hsum : y + (n : Int) = cfg.ScreenRows) :
    drawRowsLoop cfg n y buf = some (buf ++ tildeRows n) := by
  induction n generalizing y buf with
  | zero => simp [drawRowsLoop, tildeRows_zero]
  | succ k ih =>
    have hw : wrap64 (cfg.ScreenRows - 1) = cfg.ScreenRows - 1 :=
      wrap64_eq_self _ (by unfold IsInt64 at *; omega)
    have hw1 : wrap64 (y + 1) = y + 1 :=
      wrap64_eq_self _ (by unfold IsInt64 at *; omega)
    have hge : y ≥ cfg.NumRows := hn
    simp only [drawRowsLoop, drawRow, drawBanner_none cfg y buf hb, if_pos hge, hw, hw1]
    have hb1 : ¬ (cfg.NumRows = 0 ∧ y + 1 = 0) := by omega
    cases k with
    | zero =>
      have hlt : ¬ (y < cfg.ScreenRows - 1) := by omega
      simp [if_neg hlt, drawRowsLoop, tildeRows_one]
    | succ m =>
      have hlt : y < cfg.ScreenRows - 1 := by push_cast at hsum; omega
      simp only [if_pos hlt]
      rw [ih (y + 1) _ (by omega) (by omega) hb1 (by push_cast at hsum ⊢; omega)]
      simp [tildeRows_succ_succ]

theorem drawBanner_zero (cfg : TermConfig) (buf : List Nat) (hnum : cfg.NumRows = 0)
    (hgo : IsInt64 cfg.ScreenCols) (hlow : -9223372036854775795 ≤ cfg.ScreenCols) :
    drawBanner cfg 0 buf
      = buf ++ List.replicate (bannerPadding cfg.ScreenCols) 32 ++ welcomeMsg ++ [13, 10] := by
  have hlen : (welcomeMsg.length : Int) = 13 := by decide
  have hw : wrap64 (cfg.ScreenCols - 13) = cfg.ScreenCols - 13 :=
    wrap64_eq_self _ (by unfold IsInt64 at *; omega)
  simp only [drawBanner, hnum, and_self, if_true, hlen, hw, bannerPadding]
  by_cases hc : 13 ≤ cfg.ScreenCols
  · have hdiv : Int.tdiv (cfg.ScreenCols - 13) 2 = (cfg.ScreenCols - 13) / 2 :=
      Int.tdiv_eq_ediv (by omega) (by omega)
    rw [hdiv, if_pos hc]
    split_ifs with hp
    · rfl
    · have hz : ((cfg.ScreenCols - 13) / 2).toNat = 0 := by omega
      simp [hz]
  · rw [if_neg hc]
    have hneg : ¬ (Int.tdiv (cfg.ScreenCols - 13) 2 > 0) := by
      intro hpos
      have h1 : (0 : Int) ≤ Int.tdiv (-(cfg.ScreenCols - 13)) 2 :=
        Int.tdiv_nonneg (by omega) (by omega)
      rw [Int.neg_tdiv] at h1
      omega
    simp [if_neg hneg]

theorem drawRows_banner (cfg : TermConfig) (buf : List Nat) (hnum : cfg.NumRows = 0)
    (hrows : 1 ≤ cfg.ScreenRows) (hgoR : IsInt64 cfg.ScreenRows) (hgoC : IsInt64 cfg.ScreenCols)
    (hlow : -9223372036854775795 ≤ cfg.ScreenCols) :
    drawRows cfg buf
      = some (buf ++ List.replicate (bannerPadding cfg.ScreenCols) 32 ++ welcomeMsg ++ [13, 10]
          ++ tildeRows cfg.ScreenRows.toNat) := by
  obtain ⟨k, hk⟩ : ∃ k : Nat, cfg.ScreenRows.toNat = k + 1 := ⟨cfg.ScreenRows.toNat - 1, by omega⟩
  have hcast : ((cfg.ScreenRows.toNat : Nat) : Int) = cfg.ScreenRows :=
    Int.toNat_of_nonneg (by omega)
  have hw : wrap64 (cfg.ScreenRows - 1) = cfg.ScreenRows - 1 :=
    wrap64_eq_self _ (by unfold IsInt64 at *; omega)
  have hw1 : wrap64 ((0 : Int) + 1) = 1 := by decide
  have hge : (0 : Int) ≥ cfg.NumRows := by omega
  simp only [drawRows, hk, drawRowsLoop, drawRow, drawBanner_zero cfg buf hnum hgoC hlow,
    if_pos hge, hw, hw1]
  have hb1 : ¬ (cfg.NumRows = 0 ∧ (1 : Int) = 0) := by omega
  cases k with
  | zero =>
    have hlt : ¬ ((1 : Int) < cfg.ScreenRows) := by omega
    simp [hlt, drawRowsLoop, tildeRows_one]
  | succ m =>
    have hlt : (0 : Int) < cfg.ScreenRows - 1 := by omega
    simp only [if_pos hlt]
    rw [drawRowsLoop_tilde cfg hgoR (m + 1) 1 _ (by omega) (by omega) hb1 (by omega)]
    simp [tildeRows_succ_succ]

/-- C13: with zero document rows and `ScreenRows >= 1`, the output of `drawRows`
begins with the banner `Gonk -- 0.0.1` (whose first byte is not a space)
preceded by exactly `(ScreenCols - 13) / 2` spaces when `ScreenCols >= 13` and
by no space when the banner is wider than the viewport; for 80 columns that
is 33 spaces. -/
theorem C13_banner_centered (cfg : TermConfig) (buf : List Nat) (hnum : cfg.NumRows = 0)
    (hrows : 1 ≤ cfg.ScreenRows) (hgoR : IsInt64 cfg.ScreenRows) (hgoC : IsInt64 cfg.ScreenCols)
    (hlow : -9223372036854775795 ≤ cfg.ScreenCols) :
    welcomeMsg = ("Gonk -- 0.0.1".toList.map Char.toNat) ∧
    welcomeMsg.head? ≠ some 32 ∧
    (∃ tail, drawRows cfg buf
      = some (buf ++ List.replicate (if 13 ≤ cfg.ScreenCols then ((cfg.ScreenCols - 13) / 2).toNat
                                      else 0) 32 ++ welcomeMsg ++ tail)) ∧
    (cfg.ScreenCols = 80 → ∃ tail, drawRows cfg buf
      = some (buf ++ List.replicate 33 32 ++ welcomeMsg ++ tail)) := by
  have hmain := drawRows_banner cfg buf hnum hrows hgoR hgoC hlow
  refine ⟨by decide, by decide, ?_, ?_⟩
  · refine ⟨[13, 10] ++ tildeRows cfg.ScreenRows.toNat, ?_⟩
    rw [hmain]
    simp [bannerPadding]
  · intro h80
    refine ⟨[13, 10] ++ tildeRows cfg.ScreenRows.toNat, ?_⟩
    rw [hmain, h80]
    have h33 : bannerPadding 80 = 33 := by decide
    simp [h33]

theorem C13_banner_centered_witness :
    (viewConfig 24 80 none).NumRows = 0 ∧ 1 ≤ (viewConfig 24 80 none).ScreenRows ∧
    IsInt64 (viewConfig 24 80 none).ScreenRows ∧ IsInt64 (viewConfig 24 80 none).ScreenCols ∧
    -9223372036854775795 ≤ (viewConfig 24 80 none).ScreenCols ∧
    (∃ tail, drawRows (viewConfig 24 80 none) []
      = some ([] ++ List.replicate 33 32 ++ welcomeMsg ++ tail)) :=
  ⟨by decide, by decide, by decide, by decide, by decide,
    (C13_banner_centered (viewConfig 24 80 none) [] (by decide) (by decide) (by decide)
      (by decide) (by decide)).2.2.2 rfl⟩

/-- C14: with zero document rows the viewport row 0 is drawn twice, as the
banner and then as a tilde row, because the banner block of `drawRows` is not
followed by `else`.  On a 24 by 80 viewport the output is the banner line
followed by 24 tilde rows, not 23: it holds 24 bytes `~` and 24 line breaks,
that is 25 screen lines.  On a 2 by 20 viewport it is the banner line and two
tilde rows. -/
theorem C14_banner_row_also_tilde :
    drawRows (viewConfig 24 80 none) []
      = some (List.replicate 33 32 ++ welcomeMsg ++ [13, 10] ++ tildeRows 24) ∧
    (List.replicate 33 32 ++ welcomeMsg ++ [13, 10] ++ tildeRows 24).count 126 = 24 ∧
    (List.replicate 33 32 ++ welcomeMsg ++ [13, 10] ++ tildeRows 24).count 10 = 24 ∧
    drawRows (viewConfig 2 20 none) []
      = some ([32, 32, 32] ++ welcomeMsg ++ [13, 10]
          ++ [126, 27, 91, 75, 13, 10] ++ [126, 27, 91, 75]) := by
  refine ⟨?_, by decide, by decide, by decide⟩
  have h := drawRows_banner (viewConfig 24 80 none) [] (by decide) (by decide) (by decide)
    (by decide) (by decide)
  have h33 : bannerPadding (viewConfig 24 80 none).ScreenCols = 33 := by decide
  have h24 : (viewConfig 24 80 none).ScreenRows.toNat = 24 := by decide
  rw [h, h33, h24]
  rfl

theorem rowText_fits (cfg : TermConfig)
    (hlen : cfg.Row.Size ≤ cfg.ScreenCols ∨
      ((runes cfg.Row.Text).length : Int) ≤ cfg.ScreenCols) :
    rowText cfg = some cfg.Row.Text := by
  unfold rowText
  split_ifs with h
  · have hr : ((runes cfg.Row.Text).length : Int) ≤ cfg.ScreenCols := by omega
    have hn : ¬ (((runes cfg.Row.Text).length : Int) > cfg.ScreenCols) := by omega
    simp only [truncateString, if_neg hn]
  · rfl

/-- C15: with one document row whose text `t` is no longer than `ScreenCols`
(in bytes, `Row.Size`, or in characters) and `ScreenRows >= 2`, the output of
`drawRows` is exactly `t`, `ESC [ K`, `CR LF`, followed by `ScreenRows-1` tilde
rows, each `~ ESC [ K`, separated by `CR LF` with nothing after the last. -/
theorem C15_row_then_tildes (cfg : TermConfig) (buf : List Nat) (hnum : cfg.NumRows = 1)
    (hlen : cfg.Row.Size ≤ cfg.ScreenCols ∨
      ((runes cfg.Row.Text).length : Int) ≤ cfg.ScreenCols)
    (hrows : 2 ≤ cfg.ScreenRows) (hgoR : IsInt64 cfg.ScreenRows) :
    drawRows cfg buf
      = some (buf ++ cfg.Row.Text ++ [27, 91, 75] ++ [13, 10]
          ++ List.intercalate [13, 10]
              (List.replicate (cfg.ScreenRows - 1).toNat [126, 27, 91, 75])) := by
  obtain ⟨k, hk⟩ : ∃ k : Nat, cfg.ScreenRows.toNat = k + 1 := ⟨cfg.ScreenRows.toNat - 1, by omega⟩
  have hk1 : (cfg.ScreenRows - 1).toNat = k := by omega
  have hw1 : wrap64 ((0 : Int) + 1) = 1 := by decide
  have hge : ¬ ((0 : Int) ≥ cfg.NumRows) := by omega
  have hb : ¬ (cfg.NumRows = 0 ∧ (0 : Int) = 0) := by omega
  have hb1 : ¬ (cfg.NumRows = 0 ∧ (1 : Int) = 0) := by omega
  simp only [drawRows, hk, drawRowsLoop, drawRow, drawBanner_none cfg 0 buf hb, if_neg hge,
    rowText_fits cfg hlen, hw1, hk1]
  rw [drawRowsLoop_tilde cfg hgoR k 1 _ (by omega) (by omega) hb1 (by omega)]
  rfl

theorem C15_row_then_tildes_witness :
    (viewConfig 24 80 (some [104, 101, 108, 108, 111, 32, 119, 111, 114, 108, 100])).NumRows = 1 ∧
    drawRows (viewConfig 24 80 (some [104, 101, 108, 108, 111, 32, 119, 111, 114, 108, 100])) []
      = some ([] ++ [104, 101, 108, 108, 111, 32, 119, 111, 114, 108, 100] ++ [27, 91, 75]
          ++ [13, 10] ++ List.intercalate [13, 10] (List.replicate 23 [126, 27, 91, 75])) :=
  ⟨by decide,
    C15_row_then_tildes (viewConfig 24 80 (some [104, 101, 108, 108, 111, 32, 119, 111, 114, 108, 100]))
      [] (by decide) (Or.inl (by decide)) (by decide) (by decide)⟩

/-! ## Characters of a row -/

theorem isCont_iff (b : Nat) : isCont b = true ↔ 0x80 ≤ b ∧ b ≤ 0xBF := by
  simp [isCont]

theorem decodeRune_encodeRune (r : Nat) (rest : List Nat) (hr : IsScalar r) :
    decodeRune (encodeRune r ++ rest) = (r, (encodeRune r).length) := by
  unfold IsScalar at hr
  unfold encodeRune
  split_ifs with h1 h2 h3 h4
  · simp [decodeRune, h1]
  · have a1 : ¬ (0xC0 + r / 64 < 0x80) := by omega
    have a2 : 0xC2 ≤ 0xC0 + r / 64 ∧ 0xC0 + r / 64 ≤ 0xDF := by omega
    have a3 : isCont (0x80 + r % 64) = true := by rw [isCont_iff]; omega
    simp only [List.cons_append, List.nil_append, decodeRune, if_neg a1, if_pos a2, if_pos a3,
      List.length_cons, List.length_nil, Prod.mk.injEq, and_true]
    omega
  · omega
  · have a1 : ¬ (0xE0 + r / 4096 < 0x80) := by omega
    have a2 : ¬ (0xC2 ≤ 0xE0 + r / 4096 ∧ 0xE0 + r / 4096 ≤ 0xDF) := by omega
    have a3 : 0xE0 ≤ 0xE0 + r / 4096 ∧ 0xE0 + r / 4096 ≤ 0xEF := by omega
    have a4 : isCont (0x80 + r % 64) = true := by rw [isCont_iff]; omega
    have a5 : secondLo (0xE0 + r / 4096) ≤ 0x80 + r / 64 % 64 := by
      unfold secondLo; split_ifs <;> omega
    have a6 : 0x80 + r / 64 % 64 ≤ secondHi (0xE0 + r / 4096) := by
      unfold secondHi; split_ifs <;> omega
    simp only [List.cons_append, List.nil_append, decodeRune, if_neg a1, if_neg a2, if_pos a3,
      if_pos (And.intro a5 (And.intro a6 a4)), List.length_cons, List.length_nil, Prod.mk.injEq, and_true]
    omega
  · have a1 : ¬ (0xF0 + r / 262144 < 0x80) := by omega
    have a2 : ¬ (0xC2 ≤ 0xF0 + r / 262144 ∧ 0xF0 + r / 262144 ≤ 0xDF) := by omega
    have a3 : ¬ (0xE0 ≤ 0xF0 + r / 262144 ∧ 0xF0 + r / 262144 ≤ 0xEF) := by omega
    have a3' : 0xF0 ≤ 0xF0 + r / 262144 ∧ 0xF0 + r / 262144 ≤ 0xF4 := by omega
    have a4 : isCont (0x80 + r % 64) = true := by rw [isCont_iff]; omega
    have a4' : isCont (0x80 + r / 64 % 64) = true := by rw [isCont_iff]; omega
    have a5 : secondLo (0xF0 + r / 262144) ≤ 0x80 + r / 4096 % 64 := by
      unfold secondLo; split_ifs <;> omega
    have a6 : 0x80 + r / 4096 % 64 ≤ secondHi (0xF0 + r / 262144) := by
      unfold secondHi; split_ifs <;> omega
    simp only [List.cons_append, List.nil_append, decodeRune, if_neg a1, if_neg a2, if_neg a3,
      if_pos a3', if_pos (And.intro a5 (And.intro a6 (And.intro a4' a4))), List.length_cons,
      List.length_nil, Prod.mk.injEq, and_true]
    omega

theorem decodeRune_scalar (s : List Nat) : IsScalar (decodeRune s).1 := by
  have hfd : IsScalar 0xFFFD := by unfold IsScalar; omega
  unfold decodeRune
  split
  · exact hfd
  · rename_i b0 t
    split_ifs with h1 h2 h3 h4
    · unfold IsScalar; simp only; omega
    · split
      · rename_i b1 t1
        split_ifs with c1
        · rw [isCont_iff] at c1
          unfold IsScalar; simp only; omega
        · exact hfd
      · exact hfd
    · split
      · rename_i b1 b2 t2
        split_ifs with c1
        · obtain ⟨c1, c2, c3⟩ := c1
          rw [isCont_iff] at c3
          unfold secondLo at c1
          unfold secondHi at c2
          unfold IsScalar; simp only
          split_ifs at c1 c2 <;> omega
        · exact hfd
      · exact hfd
    · split
      · rename_i b1 b2 b3 t3
        split_ifs with c1
        · obtain ⟨c1, c2, c3, c4⟩ := c1
          rw [isCont_iff] at c3 c4
          unfold secondLo at c1
          unfold secondHi at c2
          unfold IsScalar; simp only
          split_ifs at c1 c2 <;> omega
        · exact hfd
      · exact hfd
    · exact hfd

theorem decodeRune_width (b : Nat) (t : List Nat) : 1 ≤ (decodeRune (b :: t)).2 := by
  simp only [decodeRune]
  split_ifs
  · simp
  · split
    · split_ifs <;> simp
    · simp
  · split
    · split_ifs <;> simp
    · simp
  · split
    · split_ifs <;> simp
    · simp
  · simp

theorem runesFuel_nil (n : Nat) : runesFuel n [] = [] := by
  cases n <;> rfl

theorem runesFuel_fuel (n m : Nat) (s : List Nat) (hn : s.length ≤ n) (hm : s.length ≤ m) :
    runesFuel n s = runesFuel m s := by
  induction n generalizing m s with
  | zero =>
    have hs : s = [] := List.length_eq_zero.mp (by omega)
    subst hs
    rw [runesFuel_nil, runesFuel_nil]
  | succ k ih =>
    cases s with
    | nil => rw [runesFuel_nil, runesFuel_nil]
    | cons b t =>
      cases m with
      | zero => simp at hm
      | succ j =>
        have hw := decodeRune_width b t
        simp only [List.length_cons] at hn hm
        simp only [runesFuel]
        congr 1
        apply ih
        · simp only [List.length_drop, List.length_cons]; omega
        · simp only [List.length_drop, List.length_cons]; omega

theorem runes_cons (b : Nat) (t : List Nat) :
    runes (b :: t)
      = (decodeRune (b :: t)).1 :: runes ((b :: t).drop (decodeRune (b :: t)).2) := by
  have hw := decodeRune_width b t
  unfold runes
  simp only [List.length_cons, runesFuel]
  congr 1
  apply runesFuel_fuel
  · simp only [List.length_drop, List.length_cons]; omega
  · exact Nat.le_refl _

theorem runesFuel_length (n : Nat) (s : List Nat) : (runesFuel n s).length ≤ n := by
  induction n generalizing s with
  | zero => simp [runesFuel]
  | succ k ih =>
    cases s with
    | nil => simp [runesFuel]
    | cons b t =>
      simp only [runesFuel, List.length_cons]
      have := ih ((b :: t).drop (decodeRune (b :: t)).2)
      omega

theorem runes_length_le (s : List Nat) : (runes s).length ≤ s.length :=
  runesFuel_length s.length s

theorem runesFuel_scalar (n : Nat) (s : List Nat) : ∀ r ∈ runesFuel n s, IsScalar r := by
  induction n generalizing s with
  | zero => simp [runesFuel]
  | succ k ih =>
    cases s with
    | nil => simp [runesFuel]
    | cons b t =>
      intro r hr
      simp only [runesFuel, List.mem_cons] at hr
      rcases hr with h | h
      · rw [h]; exact decodeRune_scalar _
      · exact ih _ r h

theorem runes_scalar (s : List Nat) : ∀ r ∈ runes s, IsScalar r :=
  runesFuel_scalar s.length s

theorem encodeRune_ne_nil (r : Nat) : encodeRune r ≠ [] := by
  unfold encodeRune
  split_ifs <;> simp

theorem runes_encodeRune_append (r : Nat) (rest : List Nat) (hr : IsScalar r) :
    runes (encodeRune r ++ rest) = r :: runes rest := by
  have hd := decodeRune_encodeRune r rest hr
  obtain ⟨b, t, hbt⟩ : ∃ b t, encodeRune r ++ rest = b :: t := by
    cases h : encodeRune r ++ rest with
    | nil =>
      have := encodeRune_ne_nil r
      simp_all
    | cons b t => exact ⟨b, t, rfl⟩
  rw [hbt, runes_cons, ← hbt, hd]
  simp

theorem runes_encodeRunes (rs : List Nat) (h : ∀ r ∈ rs, IsScalar r) :
    runes (encodeRunes rs) = rs := by
  induction rs with
  | nil => rfl
  | cons r t ih =>
    simp only [encodeRunes]
    rw [runes_encodeRune_append r _ (h r (by simp)), ih (fun x hx => h x (by simp [hx]))]

theorem encodeRunes_append (a b : List Nat) :
    encodeRunes (a ++ b) = encodeRunes a ++ encodeRunes b := by
  induction a with
  | nil => rfl
  | cons r t ih => simp [encodeRunes, ih]

theorem runes_encode_take (s : List Nat) (n : Nat) :
    runes (encodeRunes ((runes s).take n)) = (runes s).take n :=
  runes_encodeRunes _ (fun r hr => runes_scalar s r (List.mem_of_mem_take hr))

/-- C16, as stated, fails: the row text `FF 61 62` (an ill-formed byte, then
`ab`) has three characters, and on two columns `drawRows` emits
`EF BF BD 61`, the encoding of `U+FFFD` and `a`, which is not a prefix of the
row text. -/
theorem C16_truncate_bytes_counterexample :
    (viewConfig 24 2 (some [255, 97, 98])).Row.Size
      = ((viewConfig 24 2 (some [255, 97, 98])).Row.Text.length : Int) ∧
    (runes [255, 97, 98]).length = 3 ∧
    truncateString [255, 97, 98] 2 = some [239, 191, 189, 97] ∧
    rowText (viewConfig 24 2 (some [255, 97, 98])) = some [239, 191, 189, 97] ∧
    ¬ (∃ rest, [255, 97, 98] = [239, 191, 189, 97] ++ rest) := by
  refine ⟨by decide, by decide, by decide, by decide, ?_⟩
  rintro ⟨rest, h⟩
  simp at h

/-- C16, amended: for every row text with `Row.Size` its byte length and every
`ScreenCols >= 0`, `drawRows` emits a text `out`, equal to
`truncateString(text, ScreenCols)`, whose characters are the first
`ScreenCols` characters of the row (all of them when there are fewer), an
ill-formed byte counting as the one character `U+FFFD`.  With at most
`ScreenCols` characters the text is emitted unchanged; with more, `out` is the
encoding of the first `ScreenCols` characters and has exactly `ScreenCols`
characters.  When the row text is well-formed UTF-8, `out` is a prefix of it
that ends on a character boundary. -/
theorem C16_truncate_characters (cfg : TermConfig)
    (hsize : cfg.Row.Size = (cfg.Row.Text.length : Int)) (hcols : 0 ≤ cfg.ScreenCols) :
    ∃ out, rowText cfg = some out ∧
      truncateString cfg.Row.Text cfg.ScreenCols = some out ∧
      runes out = (runes cfg.Row.Text).take
        (min cfg.ScreenCols.toNat (runes cfg.Row.Text).length) ∧
      (((runes cfg.Row.Text).length : Int) ≤ cfg.ScreenCols → out = cfg.Row.Text) ∧
      (cfg.ScreenCols < ((runes cfg.Row.Text).length : Int) →
        out = encodeRunes ((runes cfg.Row.Text).take cfg.ScreenCols.toNat) ∧
        (runes out).length = cfg.ScreenCols.toNat) ∧
      (WellFormedUTF8 cfg.Row.Text →
        ∃ rest, cfg.Row.Text = out ++ rest ∧ WellFormedUTF8 out ∧ WellFormedUTF8 rest) := by
  have hle := runes_length_le cfg.Row.Text
  by_cases hlong : ((runes cfg.Row.Text).length : Int) > cfg.ScreenCols
  · have hneg : ¬ (cfg.ScreenCols < 0) := by omega
    have hsz : cfg.Row.Size > cfg.ScreenCols := by omega
    have htr : truncateString cfg.Row.Text cfg.ScreenCols
        = some (encodeRunes ((runes cfg.Row.Text).take cfg.ScreenCols.toNat)) := by
      simp only [truncateString, if_pos hlong, if_neg hneg]
    have hrt : rowText cfg
        = some (encodeRunes ((runes cfg.Row.Text).take cfg.ScreenCols.toNat)) := by
      simp only [rowText, if_pos hsz, htr]
    have hrunes := runes_encode_take cfg.Row.Text cfg.ScreenCols.toNat
    have hmin : min cfg.ScreenCols.toNat (runes cfg.Row.Text).length = cfg.ScreenCols.toNat := by
      omega
    refine ⟨_, hrt, htr, ?_, ?_, ?_, ?_⟩
    · rw [hrunes, hmin]
    · intro h; omega
    · intro _
      refine ⟨rfl, ?_⟩
      rw [hrunes, List.length_take]
      omega
    · intro hwf
      refine ⟨encodeRunes ((runes cfg.Row.Text).drop cfg.ScreenCols.toNat), ?_, ?_, ?_⟩
      · rw [← encodeRunes_append, List.take_append_drop]
        exact hwf.symm
      · unfold WellFormedUTF8
        rw [hrunes]
      · unfold WellFormedUTF8
        rw [runes_encodeRunes _
          (fun r hr => runes_scalar cfg.Row.Text r (List.mem_of_mem_drop hr))]
  · have htr : truncateString cfg.Row.Text cfg.ScreenCols = some cfg.Row.Text := by
      simp only [truncateString, if_neg hlong]
    have hrt : rowText cfg = some cfg.Row.Text :=
      rowText_fits cfg (Or.inr (by omega))
    have hmin : min cfg.ScreenCols.toNat (runes cfg.Row.Text).length
        = (runes cfg.Row.Text).length := by
      omega
    refine ⟨_, hrt, htr, ?_, ?_, ?_, ?_⟩
    · rw [hmin, List.take_length]
    · intro _; rfl
    · intro h; omega
    · intro hwf
      exact ⟨[], by simp, hwf, by decide⟩

theorem C16_truncate_characters_witness :
    (viewConfig 24 2 (some [0xE2, 0x82, 0xAC, 0x41, 0x42])).Row.Size
      = ((viewConfig 24 2 (some [0xE2, 0x82, 0xAC, 0x41, 0x42])).Row.Text.length : Int) ∧
    (0 : Int) ≤ (viewConfig 24 2 (some [0xE2, 0x82, 0xAC, 0x41, 0x42])).ScreenCols ∧
    rowText (viewConfig 24 2 (some [0xE2, 0x82, 0xAC, 0x41, 0x42]))
      = some [0xE2, 0x82, 0xAC, 0x41] ∧
    WellFormedUTF8 [0xE2, 0x82, 0xAC, 0x41, 0x42] ∧
    ∃ out, rowText (viewConfig 24 2 (some [0xE2, 0x82, 0xAC, 0x41, 0x42])) = some out ∧
      runes out = (runes [0xE2, 0x82, 0xAC, 0x41, 0x42]).take 2 ∧
      ∃ rest, [0xE2, 0x82, 0xAC, 0x41, 0x42] = out ++ rest :=
  ⟨by decide, by decide, by decide, by decide,
    (C16_truncate_characters (viewConfig 24 2 (some [0xE2, 0x82, 0xAC, 0x41, 0x42]))
      (by decide) (by decide)).elim
      (fun out h => ⟨out, h.1, h.2.2.1,
        (h.2.2.2.2.2 (by decide)).elim (fun rest hr => ⟨rest, hr.1⟩)⟩)⟩

/-! ## Window size -/

theorem Atoi_nonneg (ds : List Nat) : 0 ≤ Atoi ds := by
  unfold Atoi
  split_ifs <;> omega

/-- C17, as stated, fails: the direct query with `errno = 0`, `ws.Row = 0` and
`ws.Col = 80` makes `GetWindowSize` return nil with `ScreenRows = 0`, and the
fallback report `ESC [ 0 ; 0 R` makes it return nil with `ScreenRows = 0` and
`ScreenCols = 0`. -/
theorem C17_window_size_counterexample :
    GetWindowSize 0 0 80 none [] (sampleConfig 0 0)
      = (none, { sampleConfig 0 0 with ScreenRows := 0, ScreenCols := 80 }) ∧
    GetWindowSize 25 0 0 none [27, 91, 48, 59, 48, 82] (sampleConfig 0 0)
      = (none, { sampleConfig 0 0 with ScreenRows := 0, ScreenCols := 0 }) := by
  decide

/-- C17, amended: whenever `GetWindowSize` returns without error, the stored
geometry is not negative, `ScreenRows >= 0` and `ScreenCols >= 0`, and both are
`int` values; when the direct query was used (`errno = 0` and `ws.Col != 0`)
the geometry is `(ws.Row, ws.Col)` with `ScreenCols > 0`.  Only the column
count of the direct query is tested against zero, and a zero there leads to
the fallback, not to an error. -/
theorem C17_window_size_nonneg (errno wsRow wsCol : Nat) (readErr : Option GoError)
    (resp : List Nat) (cfg cfg1 : TermConfig)
    (h : GetWindowSize errno wsRow wsCol readErr resp cfg = (none, cfg1)) :
    0 ≤ cfg1.ScreenRows ∧ 0 ≤ cfg1.ScreenCols ∧
    IsInt64 cfg1.ScreenRows ∧ IsInt64 cfg1.ScreenCols ∧
    (errno = 0 ∧ wsCol % 65536 ≠ 0 →
      0 < cfg1.ScreenCols ∧ cfg1.ScreenRows = ((wsRow % 65536 : Nat) : Int) ∧
      cfg1.ScreenCols = ((wsCol % 65536 : Nat) : Int)) := by
  unfold GetWindowSize at h
  by_cases hio : errno = 0 ∧ wsCol % 65536 ≠ 0
  · rw [if_pos hio] at h
    simp only [Prod.mk.injEq, true_and] at h
    subst h
    have h2 := hio.2
    refine ⟨?_, ?_, ?_, ?_, ?_⟩
    · simp only; omega
    · simp only; omega
    · unfold IsInt64; simp only; omega
    · unfold IsInt64; simp only; omega
    · intro _
      refine ⟨?_, rfl, rfl⟩
      simp only; omega
  · rw [if_neg hio] at h
    unfold getCursorPosition at h
    cases readErr with
    | some e => simp at h
    | none =>
      cases hf : findReport (List.take 32 resp) with
      | none => simp [hf] at h
      | some m =>
        obtain ⟨m1, m2⟩ := m
        simp only [hf, Prod.mk.injEq, true_and] at h
        subst h
        exact ⟨Atoi_nonneg m1, Atoi_nonneg m2, Atoi_isInt64 m1, Atoi_isInt64 m2,
          fun hc => absurd hc hio⟩

theorem C17_window_size_nonneg_witness :
    GetWindowSize 0 24 80 none [] (sampleConfig 0 0) = (none, sampleConfig 0 0) ∧
    (0 : Int) ≤ (sampleConfig 0 0).ScreenRows ∧ (0 : Int) < (sampleConfig 0 0).ScreenCols :=
  ⟨by decide,
    (C17_window_size_nonneg 0 24 80 none [] (sampleConfig 0 0) (sampleConfig 0 0) (by decide)).1,
    ((C17_window_size_nonneg 0 24 80 none [] (sampleConfig 0 0) (sampleConfig 0 0)
      (by decide)).2.2.2.2 (by decide)).1⟩

/-! ## The cursor position report -/

theorem matchReportAt_report (rows cols post : List Nat) (hr : rows ≠ []) (hc : cols ≠ [])
    (hdr : ∀ d ∈ rows, isDigit d = true) (hdc : ∀ d ∈ cols, isDigit d = true) :
    matchReportAt ([27, 91] ++ rows ++ [59] ++ cols ++ [82] ++ post) = some (rows, cols) := by
  have h59 : isDigit 59 = false := by decide
  have h82 : isDigit 82 = false := by decide
  have e1 : List.takeWhile isDigit (rows ++ 59 :: (cols ++ 82 :: post)) = rows := by
    rw [List.takeWhile_append_of_pos hdr]
    simp [List.takeWhile, h59]
  have e2 : List.dropWhile isDigit (rows ++ 59 :: (cols ++ 82 :: post))
      = 59 :: (cols ++ 82 :: post) := by
    rw [List.dropWhile_append_of_pos hdr]
    simp [List.dropWhile, h59]
  have e3 : List.takeWhile isDigit (cols ++ 82 :: post) = cols := by
    rw [List.takeWhile_append_of_pos hdc]
    simp [List.takeWhile, h82]
  have e4 : List.dropWhile isDigit (cols ++ 82 :: post) = 82 :: post := by
    rw [List.dropWhile_append_of_pos hdc]
    simp [List.dropWhile, h82]
  have hs : [27, 91] ++ rows ++ [59] ++ cols ++ [82] ++ post
      = 27 :: 91 :: (rows ++ 59 :: (cols ++ 82 :: post)) := by simp
  rw [hs]
  simp only [matchReportAt, e1, e2, e3, e4, if_neg hr, if_neg hc]

theorem matchReportAt_some (s r c : List Nat) (h : matchReportAt s = some (r, c)) :
    r ≠ [] ∧ c ≠ [] ∧ (∀ d ∈ r, isDigit d = true) ∧ (∀ d ∈ c, isDigit d = true) ∧
    ∃ post, s = [27, 91] ++ r ++ [59] ++ c ++ [82] ++ post := by
  unfold matchReportAt at h
  split at h
  · rename_i t
    split_ifs at h with h1
    split at h
    · rename_i u hu
      split_ifs at h with h2
      split at h
      · rename_i post hp
        simp only [Option.some.injEq, Prod.mk.injEq] at h
        obtain ⟨hr, hc⟩ := h
        have e1 := List.takeWhile_append_dropWhile isDigit t
        have e2 := List.takeWhile_append_dropWhile isDigit u
        rw [hu, hr] at e1
        rw [hp, hc] at e2
        refine ⟨hr ▸ h1, hc ▸ h2, ?_, ?_, ⟨post, ?_⟩⟩
        · intro d hd
          rw [← hr] at hd
          exact List.mem_takeWhile_imp hd
        · intro d hd
          rw [← hc] at hd
          exact List.mem_takeWhile_imp hd
        · rw [← e1, ← e2]
          simp
      · simp at h
    · simp at h
  · simp at h

theorem findReport_some (s r c : List Nat) (h : findReport s = some (r, c)) :
    ∃ pre post, (∃ report, IsReport r c report ∧ s = pre ++ report ++ post) := by
  induction s with
  | nil => simp [findReport] at h
  | cons b t ih =>
    unfold findReport at h
    cases hm : matchReportAt (b :: t) with
    | some m =>
      simp only [hm, Option.some.injEq] at h
      subst h
      obtain ⟨h1, h2, h3, h4, post, hs⟩ := matchReportAt_some _ _ _ hm
      exact ⟨[], post, _, ⟨h1, h2, h3, h4, rfl⟩, by simpa using hs⟩
    | none =>
      simp only [hm] at h
      obtain ⟨pre, post, report, hrep, hs⟩ := ih h
      exact ⟨b :: pre, post, report, hrep, by simp [hs]⟩

theorem findReport_isSome (pre post r c report : List Nat) (hrep : IsReport r c report) :
    (findReport (pre ++ report ++ post)).isSome = true := by
  obtain ⟨h1, h2, h3, h4, hr⟩ := hrep
  induction pre with
  | nil =>
    have hm := matchReportAt_report r c post h1 h2 h3 h4
    have hs : [] ++ report ++ post = 27 :: 91 :: (r ++ 59 :: (c ++ 82 :: post)) := by
      simp [hr]
    have hs2 : [27, 91] ++ r ++ [59] ++ c ++ [82] ++ post
        = 27 :: 91 :: (r ++ 59 :: (c ++ 82 :: post)) := by simp
    rw [hs2] at hm
    rw [hs]
    simp [findReport, hm]
  | cons p ps ih =>
    simp only [List.cons_append, findReport]
    cases hm : matchReportAt (p :: (ps ++ report ++ post)) with
    | some m => simp
    | none => simpa using ih

theorem findReport_exact (r c report : List Nat) (hrep : IsReport r c report) :
    findReport report = some (r, c) := by
  obtain ⟨h1, h2, h3, h4, hr⟩ := hrep
  have hm := matchReportAt_report r c [] h1 h2 h3 h4
  have hs : [27, 91] ++ r ++ [59] ++ c ++ [82] ++ [] = 27 :: 91 :: (r ++ 59 :: (c ++ [82])) := by
    simp
  have hs2 : report = 27 :: 91 :: (r ++ 59 :: (c ++ [82])) := by simp [hr]
  rw [hs] at hm
  rw [hs2]
  simp [findReport, hm]

theorem getCursorPosition_accept (resp : List Nat) (cfg : TermConfig)
    (h : (getCursorPosition none resp cfg).1 = none) :
    ∃ pre post r c report, IsReport r c report ∧ resp.take 32 = pre ++ report ++ post ∧
      (getCursorPosition none resp cfg).2
        = { cfg with ScreenRows := Atoi r, ScreenCols := Atoi c } := by
  unfold getCursorPosition at h ⊢
  cases hf : findReport (List.take 32 resp) with
  | none => simp [hf] at h
  | some m =>
    obtain ⟨r, c⟩ := m
    obtain ⟨pre, post, report, hrep, hs⟩ := findReport_some _ _ _ hf
    exact ⟨pre, post, r, c, report, hrep, hs, by simp⟩

theorem getCursorPosition_reject (resp : List Nat) (cfg : TermConfig)
    (h : (getCursorPosition none resp cfg).1 ≠ none) :
    getCursorPosition none resp cfg = (some GoError.parseCursor, cfg) := by
  unfold getCursorPosition at h ⊢
  cases hf : findReport (List.take 32 resp) with
  | none => simp
  | some m => simp [hf] at h

theorem getCursorPosition_contains (resp pre post r c report : List Nat) (cfg : TermConfig)
    (hrep : IsReport r c report) (hs : resp.take 32 = pre ++ report ++ post) :
    (getCursorPosition none resp cfg).1 = none := by
  have hsome := findReport_isSome pre post r c report hrep
  rw [← hs] at hsome
  unfold getCursorPosition
  cases hf : findReport (List.take 32 resp) with
  | none => simp [hf] at hsome
  | some m => simp

theorem getCursorPosition_exact (resp r c : List Nat) (cfg : TermConfig)
    (hrep : IsReport r c resp) (hlen : resp.length ≤ 32) :
    getCursorPosition none resp cfg
      = (none, { cfg with ScreenRows := Atoi r, ScreenCols := Atoi c }) := by
  have htake : resp.take 32 = resp := List.take_of_length_le hlen
  unfold getCursorPosition
  simp only [htake, findReport_exact r c resp hrep]

/-- C19, as stated, fails: the response `x ESC [ 2 4 ; 8 0 R y` is not of the
exact shape (a byte stands before and after the report), yet
`getCursorPosition` returns nil and stores 24 rows and 80 columns; and the
response `ESC [ 99999999999999999999 ; 1 R` of the exact shape stores
`ScreenRows = 9223372036854775807`, not the decimal value. -/
theorem C19_report_shape_counterexample :
    getCursorPosition none [120, 27, 91, 50, 52, 59, 56, 48, 82, 121] (viewConfig 0 0 none)
      = (none, { viewConfig 0 0 none with ScreenRows := 24, ScreenCols := 80 }) ∧
    ¬ (∃ r c, IsReport r c [120, 27, 91, 50, 52, 59, 56, 48, 82, 121]) ∧
    IsReport [57, 57, 57, 57, 57, 57, 57, 57, 57, 57, 57, 57, 57, 57, 57, 57, 57, 57, 57, 57] [49]
      [27, 91, 57, 57, 57, 57, 57, 57, 57, 57, 57, 57, 57, 57, 57, 57, 57, 57, 57, 57, 57, 57,
        59, 49, 82] ∧
    (getCursorPosition none
      [27, 91, 57, 57, 57, 57, 57, 57, 57, 57, 57, 57, 57, 57, 57, 57, 57, 57, 57, 57, 57, 57,
        59, 49, 82] (viewConfig 0 0 none)).2.ScreenRows = 9223372036854775807 ∧
    decimalValue [57, 57, 57, 57, 57, 57, 57, 57, 57, 57, 57, 57, 57, 57, 57, 57, 57, 57, 57, 57]
      = 99999999999999999999 := by
  refine ⟨by decide, ?_, ?_, by decide, by decide⟩
  · rintro ⟨r, c, _, _, _, _, hr⟩
    simp at hr
  · refine ⟨by decide, by decide, by decide, by decide, by decide⟩

/-- C19, amended: `getCursorPosition` accepts the bytes its read delivers (the
first 32) exactly when they contain a report `ESC [ rows ; cols R`; bytes
before or after the report do not matter.  It then returns nil and sets
`ScreenRows` and `ScreenCols` to the values `Atoi` gives for the digits of such
a report, which are the decimal values unless they exceed the largest `int`;
a response of exactly the shape and at most 32 bytes sets them to the values
of its own digits.  Otherwise it returns the parse error and leaves the
configuration unchanged. -/
theorem C19_cursor_report (resp : List Nat) (cfg : TermConfig) :
    ((getCursorPosition none resp cfg).1 = none ↔
      ∃ pre post r c report, IsReport r c report ∧ resp.take 32 = pre ++ report ++ post) ∧
    ((getCursorPosition none resp cfg).1 = none →
      ∃ pre post r c report, IsReport r c report ∧ resp.take 32 = pre ++ report ++ post ∧
        (getCursorPosition none resp cfg).2
          = { cfg with ScreenRows := Atoi r, ScreenCols := Atoi c }) ∧
    ((getCursorPosition none resp cfg).1 ≠ none →
      getCursorPosition none resp cfg = (some GoError.parseCursor, cfg)) ∧
    (∀ r c, IsReport r c resp → resp.length ≤ 32 →
      getCursorPosition none resp cfg
        = (none, { cfg with ScreenRows := Atoi r, ScreenCols := Atoi c })) ∧
    (∀ ds : List Nat, decimalValue ds ≤ 9223372036854775807 →
      Atoi ds = (decimalValue ds : Int)) := by
  refine ⟨⟨?_, ?_⟩, getCursorPosition_accept resp cfg, getCursorPosition_reject resp cfg, ?_, ?_⟩
  · intro h
    obtain ⟨pre, post, r, c, report, hrep, hs, _⟩ := getCursorPosition_accept resp cfg h
    exact ⟨pre, post, r, c, report, hrep, hs⟩
  · rintro ⟨pre, post, r, c, report, hrep, hs⟩
    exact getCursorPosition_contains resp pre post r c report cfg hrep hs
  · intro r c hrep hlen
    exact getCursorPosition_exact resp r c cfg hrep hlen
  · intro ds hds
    simp only [Atoi, if_pos hds]

theorem C19_cursor_report_witness :
    IsReport [50, 52] [56, 48] [27, 91, 50, 52, 59, 56, 48, 82] ∧
    ([27, 91, 50, 52, 59, 56, 48, 82] : List Nat).length ≤ 32 ∧
    getCursorPosition none [27, 91, 50, 52, 59, 56, 48, 82] (viewConfig 0 0 none)
      = (none, { viewConfig 0 0 none with ScreenRows := Atoi [50, 52],
                                          ScreenCols := Atoi [56, 48] }) ∧
    Atoi [50, 52] = 24 ∧
    getCursorPosition none [27, 91, 50, 52, 59, 82] (viewConfig 0 0 none)
      = (some GoError.parseCursor, viewConfig 0 0 none) :=
  ⟨⟨by decide, by decide, by decide, by decide, by decide⟩, by decide,
    (C19_cursor_report [27, 91, 50, 52, 59, 56, 48, 82] (viewConfig 0 0 none)).2.2.2.1
      [50, 52] [56, 48] ⟨by decide, by decide, by decide, by decide, by decide⟩ (by decide),
    by decide,
    (C19_cursor_report [27, 91, 50, 52, 59, 82] (viewConfig 0 0 none)).2.2.1 (by decide)⟩

/-! ## Runs of the program -/

theorem readUntilTilde_length (buf : Nat) (seq : List Nat) (inp : List ReadEvent) :
    (readUntilTilde buf seq inp).2.length ≤ inp.length := by
  induction inp generalizing buf seq with
  | nil => simp [readUntilTilde]
  | cons ev t ih =>
    cases ev with
    | data b =>
      simp only [readUntilTilde, readEvent]
      split_ifs
      · simp
      · have := ih b (seq ++ [b])
        simp only [List.length_cons]
        omega
    | idle =>
      simp only [readUntilTilde, readEvent]
      split_ifs
      · simp
      · have := ih buf (seq ++ [buf])
        simp only [List.length_cons]
        omega
    | fail e => simp [readUntilTilde, readEvent]

theorem stdinRead_length (buf : Nat) (inp : List ReadEvent) :
    (stdinRead buf inp).2.2.length ≤ inp.length := by
  cases inp with
  | nil => simp [stdinRead]
  | cons ev t => simp [stdinRead]

theorem readEscape_length (buf : Nat) (inp : List ReadEvent) :
    (readEscape buf inp).2.length ≤ inp.length := by
  rcases h1 : stdinRead buf inp with ⟨⟨n1, e1⟩, buf1, inp1⟩
  have l1 : inp1.length ≤ inp.length := by
    have := stdinRead_length buf inp
    rw [h1] at this
    exact this
  cases e1 with
  | some err => simp only [readEscape, h1]; exact l1
  | none =>
    simp only [readEscape, h1, List.cons_append, List.nil_append, List.getElem?_cons_succ,
      List.getElem?_cons_zero]
    split_ifs with hb ho
    · rcases h2 : stdinRead buf1 inp1 with ⟨⟨n2, e2⟩, buf2, inp2⟩
      have l2 : inp2.length ≤ inp1.length := by
        have := stdinRead_length buf1 inp1
        rw [h2] at this
        exact this
      cases e2 with
      | some err => simp only; omega
      | none =>
        simp only [List.getElem?_cons_succ, List.getElem?_cons_zero]
        split_ifs with hd
        · have l3 := readUntilTilde_length buf2 [27, buf1, buf2] inp2
          rcases h3 : readUntilTilde buf2 [27, buf1, buf2] inp2 with ⟨r3, inp3⟩
          rw [h3] at l3
          cases r3 with
          | error e => simp only; simp only at l3; omega
          | ok v => simp only; simp only at l3; omega
        · simp only; omega
    · simp only [List.getElem?_cons_succ, List.getElem?_nil]
      exact l1
    · simp only
      exact l1

theorem readKeyLoop_consumes (buf : Nat) (inp : List ReadEvent) (c : Nat)
    (rest : List ReadEvent) (h : readKeyLoop buf inp = (.ret c none, rest)) :
    rest.length < inp.length := by
  induction inp generalizing buf with
  | nil => simp [readKeyLoop] at h
  | cons ev t ih =>
    cases ev with
    | data b =>
      simp only [readKeyLoop, readEvent] at h
      rw [if_neg (by decide)] at h
      split_ifs at h with hb
      · simp only [Prod.mk.injEq] at h
        rw [← h.2]
        simp
      · have hl := readEscape_length b t
        rw [h] at hl
        simp only [List.length_cons]
        simp only at hl
        omega
    | idle =>
      simp only [readKeyLoop, readEvent, if_true] at h
      have := ih buf h
      simp only [List.length_cons]
      omega
    | fail e => simp [readKeyLoop, readEvent] at h

theorem ProcessKeyPress_consumes (cfg : TermConfig) (inp : List ReadEvent)
    (h : (ProcessKeyPress cfg inp).1 = .ret none) :
    (ProcessKeyPress cfg inp).2.2.length < inp.length := by
  unfold ProcessKeyPress at h ⊢
  rcases hk : ReadKey inp with ⟨res, rest⟩
  rw [hk] at h
  cases res with
  | panic => simp at h
  | ret c err =>
    cases err with
    | some e => simp at h
    | none =>
      simp only
      exact readKeyLoop_consumes 0 inp c rest hk

theorem mainLoop_total (fuel : Nat) (cfg : TermConfig) (inp : List ReadEvent)
    (h : inp.length < fuel) : (mainLoop fuel cfg inp).isSome = true := by
  induction fuel generalizing cfg inp with
  | zero => omega
  | succ k ih =>
    unfold mainLoop
    cases RefreshScreen cfg with
    | none => rfl
    | some out =>
      simp only
      rcases hp : ProcessKeyPress cfg inp with ⟨res, cfg1, rest⟩
      cases res with
      | panic => rfl
      | ret err =>
        cases err with
        | some e =>
          simp only
          cases RefreshScreen cfg1 with
          | none => rfl
          | some out1 =>
            simp only
            split_ifs <;> rfl
        | none =>
          simp only
          apply ih
          have hc := ProcessKeyPress_consumes cfg inp (by rw [hp])
          rw [hp] at hc
          simp only at hc
          omega

theorem main_terminates (env : MainEnv) (w : World) : (main env w).isSome = true := by
  unfold main
  rcases EnableRawMode env.k env.getRes env.setRes w with ⟨r1, w1⟩
  cases r1 with
  | panic => rfl
  | ret e1 =>
    cases e1 with
    | some e => rfl
    | none =>
      simp only
      rcases InitEditor env.errno env.wsRow env.wsCol env.posErr env.posResp w1.Config
        with ⟨e2, c1⟩
      cases e2 with
      | some e => rfl
      | none =>
        simp only
        cases env.args[1]? with
        | none => rfl
        | some a =>
          simp only
          cases EditorOpen env.openErr env.line env.scanErr c1 with
          | none => rfl
          | some c2 =>
            simp only
            have ht := mainLoop_total (env.stdin.length + 1) c2 env.stdin (by omega)
            cases hm : mainLoop (env.stdin.length + 1) c2 env.stdin with
            | none => rw [hm] at ht; simp at ht
            | some r =>
              obtain ⟨le, c3⟩ := r
              cases le <;> rfl

/-- C18: `DisableRawMode` is not called on every exit path of `main`.  The
deferred call is registered after `InitEditor` and `EditorOpen`, and
`log.Fatal` ends the process without running deferred calls.  With
`EnableRawMode` succeeding on a cooked terminal: when `InitEditor` fails
`main` returns with no call; when `EditorOpen` fails the process panics with
no call; when the key read fails (`io.EOF`) the process exits through
`log.Fatal` with no call; only after Ctrl+Q is it called, once.  In the
first three runs the terminal keeps the raw attributes. -/
theorem C18_disable_not_on_every_exit :
    (EnableRawMode bsdConsts none none (startWorld cookedTermios)).1 = .ret none ∧
    main { sampleEnv [] with errno := 25 } (startWorld cookedTermios)
      = some { exit := .returned, disableCalls := 0, tty := rawOf bsdConsts cookedTermios } ∧
    main { sampleEnv [] with openErr := some (.errno 2) } (startWorld cookedTermios)
      = some { exit := .panicked, disableCalls := 0, tty := rawOf bsdConsts cookedTermios } ∧
    main (sampleEnv []) (startWorld cookedTermios)
      = some { exit := .osExit, disableCalls := 0, tty := rawOf bsdConsts cookedTermios } ∧
    (main (sampleEnv [.data 17]) (startWorld cookedTermios)).map (fun r => (r.exit, r.disableCalls))
      = some (.returned, 1) := by
  refine ⟨by decide, ?_, ?_, ?_, ?_⟩
  · set_option maxRecDepth 100000 in decide
  · set_option maxRecDepth 100000 in decide
  · set_option maxRecDepth 100000 in decide
  · set_option maxRecDepth 100000 in decide

/-! ## The screen refresh -/

theorem drawBanner_append (cfg : TermConfig) (y : Int) (buf : List Nat) :
    drawBanner cfg y buf = buf ++ drawBanner cfg y [] := by
  simp only [drawBanner]
  split_ifs <;> simp

theorem drawRow_append (cfg : TermConfig) (y : Int) (buf : List Nat) :
    drawRow cfg y buf = (drawRow cfg y []).map (fun out => buf ++ out) := by
  simp only [drawRow]
  rw [drawBanner_append cfg y buf]
  split_ifs <;> (try cases rowText cfg) <;> simp

theorem drawRowsLoop_append (cfg : TermConfig) (n : Nat) (y : Int) (buf : List Nat) :
    drawRowsLoop cfg n y buf = (drawRowsLoop cfg n y []).map (fun out => buf ++ out) := by
  induction n generalizing y buf with
  | zero => simp [drawRowsLoop]
  | succ k ih =>
    simp only [drawRowsLoop]
    rw [drawRow_append cfg y buf]
    cases hr : drawRow cfg y [] with
    | none => simp
    | some r =>
      simp only [Option.map_some']
      rw [ih (wrap64 (y + 1)) (buf ++ r), ih (wrap64 (y + 1)) r]
      cases drawRowsLoop cfg k (wrap64 (y + 1)) [] with
      | none => simp
      | some t => simp

theorem drawRows_append (cfg : TermConfig) (buf : List Nat) :
    drawRows cfg buf = (drawRows cfg []).map (fun out => buf ++ out) :=
  drawRowsLoop_append cfg _ 0 buf

theorem rowText_isSome (cfg : TermConfig) (hcols : 0 ≤ cfg.ScreenCols) :
    (rowText cfg).isSome = true := by
  unfold rowText truncateString
  have hneg : ¬ (cfg.ScreenCols < 0) := by omega
  split_ifs <;> simp

theorem drawRowsLoop_isSome (cfg : TermConfig) (hcols : 0 ≤ cfg.ScreenCols) (n : Nat) (y : Int)
    (buf : List Nat) : (drawRowsLoop cfg n y buf).isSome = true := by
  induction n generalizing y buf with
  | zero => simp [drawRowsLoop]
  | succ k ih =>
    simp only [drawRowsLoop]
    have hrt := rowText_isSome cfg hcols
    cases hr : drawRow cfg y buf with
    | none =>
      unfold drawRow at hr
      cases ht : rowText cfg with
      | none => rw [ht] at hrt; simp at hrt
      | some t =>
        rw [ht] at hr
        split_ifs at hr
    | some r => exact ih _ _

theorem decimalDigits_value (fuel n : Nat) (acc : List Nat) (h : n < fuel) :
    List.foldl (fun a d => 10 * a + (d - 48)) 0 (decimalDigits fuel n acc)
      = List.foldl (fun a d => 10 * a + (d - 48)) n acc := by
  induction fuel generalizing n acc with
  | zero => omega
  | succ k ih =>
    simp only [decimalDigits]
    split_ifs with hlt
    · simp only [List.foldl_cons]
      congr 1
      omega
    · rw [ih (n / 10) _ (by omega)]
      simp only [List.foldl_cons]
      congr 1
      omega

theorem decimalDigits_digits (fuel n : Nat) (acc : List Nat) (h : n < fuel)
    (hacc : ∀ d ∈ acc, isDigit d = true) :
    ∀ d ∈ decimalDigits fuel n acc, isDigit d = true := by
  induction fuel generalizing n acc with
  | zero => omega
  | succ k ih =>
    simp only [decimalDigits]
    split_ifs with hlt
    · intro d hd
      simp only [List.mem_cons] at hd
      rcases hd with hd | hd
      · subst hd
        simp only [isDigit, Bool.and_eq_true, decide_eq_true_eq]
        omega
      · exact hacc d hd
    · apply ih (n / 10) _ (by omega)
      intro d hd
      simp only [List.mem_cons] at hd
      rcases hd with hd | hd
      · subst hd
        simp only [isDigit, Bool.and_eq_true, decide_eq_true_eq]
        omega
      · exact hacc d hd

theorem formatInt_decimal (x : Int) (hx : 0 ≤ x) :
    (decimalValue (formatInt x) : Int) = x ∧ ∀ d ∈ formatInt x, isDigit d = true := by
  have hneg : ¬ (x < 0) := by omega
  simp only [formatInt, if_neg hneg, decimalValue]
  refine ⟨?_, decimalDigits_digits _ _ [] (by omega) (by simp)⟩
  rw [decimalDigits_value _ _ [] (by omega)]
  simp only [List.foldl_nil]
  omega

/-- C20: for every editor state, the bytes `RefreshScreen` writes are exactly
hide-cursor `ESC [ ? 2 5 l`, home `ESC [ H`, the output of `drawRows` for the
state, the cursor position `ESC [ <CursorY+1> ; <CursorX+1> H` and show-cursor
`ESC [ ? 2 5 h`, in that order (nothing is written when `drawRows` panics,
which needs `ScreenCols < 0`).  The two numbers are written by `%d`: for a
cursor at non-negative coordinates they are strings of decimal digits whose
values are `CursorY+1`, the row, first and `CursorX+1`, the column, second. -/
theorem C20_refresh_screen (cfg : TermConfig) :
    RefreshScreen cfg
      = (drawRows cfg []).map (fun rows =>
          [27, 91, 63, 50, 53, 108] ++ [27, 91, 72] ++ rows
            ++ ([27, 91] ++ formatInt (wrap64 (cfg.CursorY + 1)) ++ [59]
                ++ formatInt (wrap64 (cfg.CursorX + 1)) ++ [72])
            ++ [27, 91, 63, 50, 53, 104]) ∧
    (0 ≤ cfg.ScreenCols → (drawRows cfg []).isSome = true ∧ (RefreshScreen cfg).isSome = true) ∧
    (0 ≤ cfg.CursorY → cfg.CursorY < 9223372036854775807 →
      (decimalValue (formatInt (wrap64 (cfg.CursorY + 1))) : Int) = cfg.CursorY + 1 ∧
      ∀ d ∈ formatInt (wrap64 (cfg.CursorY + 1)), isDigit d = true) ∧
    (0 ≤ cfg.CursorX → cfg.CursorX < 9223372036854775807 →
      (decimalValue (formatInt (wrap64 (cfg.CursorX + 1))) : Int) = cfg.CursorX + 1 ∧
      ∀ d ∈ formatInt (wrap64 (cfg.CursorX + 1)), isDigit d = true) := by
  have hmain : RefreshScreen cfg
      = (drawRows cfg []).map (fun rows =>
          [27, 91, 63, 50, 53, 108] ++ [27, 91, 72] ++ rows
            ++ ([27, 91] ++ formatInt (wrap64 (cfg.CursorY + 1)) ++ [59]
                ++ formatInt (wrap64 (cfg.CursorX + 1)) ++ [72])
            ++ [27, 91, 63, 50, 53, 104]) := by
    unfold RefreshScreen
    simp only [List.nil_append]
    rw [drawRows_append cfg ([27, 91, 63, 50, 53, 108] ++ [27, 91, 72])]
    cases drawRows cfg [] with
    | none => rfl
    | some rows => simp
  refine ⟨hmain, ?_, ?_, ?_⟩
  · intro hcols
    have hsome : (drawRows cfg []).isSome = true := drawRowsLoop_isSome cfg hcols _ 0 []
    refine ⟨hsome, ?_⟩
    rw [hmain]
    cases hd : drawRows cfg [] with
    | none => rw [hd] at hsome; simp at hsome
    | some rows => rfl
  · intro h0 h1
    have hw : wrap64 (cfg.CursorY + 1) = cfg.CursorY + 1 :=
      wrap64_eq_self _ (by unfold IsInt64; omega)
    rw [hw]
    exact formatInt_decimal _ (by omega)
  · intro h0 h1
    have hw : wrap64 (cfg.CursorX + 1) = cfg.CursorX + 1 :=
      wrap64_eq_self _ (by unfold IsInt64; omega)
    rw [hw]
    exact formatInt_decimal _ (by omega)

theorem C20_refresh_screen_witness :
    (0 : Int) ≤ (viewConfig 1 5 (some [104, 105])).ScreenCols ∧
    RefreshScreen (viewConfig 1 5 (some [104, 105]))
      = some ([27, 91, 63, 50, 53, 108] ++ [27, 91, 72] ++ [104, 105, 27, 91, 75, 13, 10]
          ++ [27, 91, 49, 59, 49, 72] ++ [27, 91, 63, 50, 53, 104]) ∧
    (RefreshScreen (viewConfig 1 5 (some [104, 105]))).isSome = true ∧
    (decimalValue (formatInt (wrap64 ((sampleConfig 7 5).CursorY + 1))) : Int)
      = (sampleConfig 7 5).CursorY + 1 ∧
    (decimalValue (formatInt (wrap64 ((sampleConfig 7 5).CursorX + 1))) : Int)
      = (sampleConfig 7 5).CursorX + 1 :=
  ⟨by decide,
    ((C20_refresh_screen (viewConfig 1 5 (some [104, 105]))).1).trans (by decide),
    ((C20_refresh_screen (viewConfig 1 5 (some [104, 105]))).2.1 (by decide)).2,
    ((C20_refresh_screen (sampleConfig 7 5)).2.2.1 (by decide) (by decide)).1,
    ((C20_refresh_screen (sampleConfig 7 5)).2.2.2 (by decide) (by decide)).1⟩

end Gonk
